import Mathlib

/-!
# Verification of the quiz engine of the assistant bot

This file shallowly embeds the quiz state machine and grading pipeline of
the bot (files `src/handlers/quiz.py`, `src/data/quiz.py`, `src/llm.py`)
and settles the frozen claims about them.

Modelling conventions:
* Python/JSON dynamic values are the inductive type `J` below.  Python
  dicts are association lists of `String × J` (JSON object keys are
  always strings); insertion order is preserved, as in Python dicts.
* File I/O is modelled away: the load functions take the parsed document
  as a `J` argument, the save functions return the document that would be
  serialized (the atomic temp-file/rename mechanics carry no logic).
* Code that can raise (`int(...)` coercions) returns `Option`.
* The LLM call is an oracle argument: either the call fails (exception /
  timeout) or it returns a content string together with a usage record.
* `str.strip()` is modelled on the ASCII whitespace characters
  `" \t\n\r\x0b\x0c"`; `str.lower()` on ASCII letters; `str.isdigit` on
  ASCII digits.  (Exotic Unicode classes are not exercised by the
  handlers or by any claim.)
* `repr` of containers is modelled without string escaping / quote
  selection; the handlers only ever call `str(...)` on scalars along the
  verified paths, so this cannot influence any claim.
-/

/-- Dynamic (JSON-like) Python value. -/
inductive J where
  | null
  | b (x : Bool)
  | i (n : Int)
  | s (v : String)
  | arr (xs : List J)
  | obj (kvs : List (String × J))

namespace J

/-- Python truthiness (`bool(x)`). -/
def truthy : J → Bool
  | .null => false
  | .b x => x
  | .i n => n != 0
  | .s v => !v.isEmpty
  | .arr xs => !xs.isEmpty
  | .obj kvs => !kvs.isEmpty

/-- `isinstance(x, dict)`. -/
def isObj : J → Bool
  | .obj _ => true
  | _ => false

/-- `isinstance(x, list)`. -/
def isArr : J → Bool
  | .arr _ => true
  | _ => false

/-- `x is None`. -/
def isNull : J → Bool
  | .null => true
  | _ => false

end J

/-- Python `a or b`. -/
def pyOr (a b : J) : J := if a.truthy then a else b

/-- Association-list lookup, first match (Python dict keys are unique;
theorems carry no-duplicate hypotheses where a model value could have
duplicate keys). -/
def olookup : List (String × J) → String → Option J
  | [], _ => none
  | (k', v) :: rest, k => if k' == k then some v else olookup rest k

/-- Python dict assignment `d[k] = v`: replace in place if the key
exists (keeping its position), else append. -/
def oset : List (String × J) → String → J → List (String × J)
  | [], k, v => [(k, v)]
  | (k', v') :: rest, k, v =>
      if k' == k then (k, v) :: rest else (k', v') :: oset rest k v

/-- Python `d.get(k)` (returns `None` when absent).  The call sites in
the source always guard with `isinstance(..., dict)`; on a non-dict this
model returns `null` where Python would raise, and the theorems about
values not produced by the loaders carry well-formedness hypotheses. -/
def jget (o : J) (k : String) : J :=
  match o with
  | .obj kvs => (olookup kvs k).getD .null
  | _ => .null

/-- Python dict assignment lifted to `J` (no-op on non-dicts, which the
source never does). -/
def jset (o : J) (k : String) (v : J) : J :=
  match o with
  | .obj kvs => .obj (oset kvs k v)
  | _ => o

/-- Python `k in d`. -/
def jhasKey (o : J) (k : String) : Bool :=
  match o with
  | .obj kvs => kvs.any (fun kv => kv.1 == k)
  | _ => false

/-- ASCII whitespace stripped by Python `str.strip()`. -/
def isPySpace (c : Char) : Bool :=
  c == ' ' || c == '\t' || c == '\n' || c == '\r' || c == '\x0b' || c == '\x0c'

/-- Python `s.strip()`. -/
def pyStrip (s : String) : String :=
  String.mk (((s.toList.dropWhile isPySpace).reverse.dropWhile isPySpace).reverse)

/-- ASCII lowercasing of one character. -/
def lowerChar (c : Char) : Char :=
  if 'A' ≤ c && c ≤ 'Z' then Char.ofNat (c.toNat + 32) else c

/-- Python `s.lower()` (ASCII). -/
def pyLower (s : String) : String := String.mk (s.toList.map lowerChar)

/-- Python `s.startswith(p)`. -/
def pyStartsWith (s p : String) : Bool := p.toList.isPrefixOf s.toList

mutual

/-- Python `repr` (container string escaping not modelled, see header). -/
def pyRepr : J → String
  | .null => "None"
  | .b true => "True"
  | .b false => "False"
  | .i n => toString n
  | .s v => "'" ++ v ++ "'"
  | .arr xs => "[" ++ String.intercalate ", " (pyReprList xs) ++ "]"
  | .obj kvs => "\x7b" ++ String.intercalate ", " (pyReprObj kvs) ++ "\x7d"

def pyReprList : List J → List String
  | [] => []
  | x :: xs => pyRepr x :: pyReprList xs

def pyReprObj : List (String × J) → List String
  | [] => []
  | (k, v) :: xs => ("'" ++ k ++ "': " ++ pyRepr v) :: pyReprObj xs

end

/-- Python `str(x)`. -/
def pyStr : J → String
  | .s v => v
  | x => pyRepr x

/-- Value of a nonempty all-digit character list. -/
def digitsVal (cs : List Char) : Option Nat :=
  if cs.isEmpty then none
  else if cs.all Char.isDigit then
    some (cs.foldl (fun a c => a * 10 + (c.toNat - 48)) 0)
  else none

/-- Python `int(s)` for a string: strip whitespace, optional single
sign, nonempty digits (numeric-literal underscores not modelled). -/
def parsePyInt (s : String) : Option Int :=
  match (pyStrip s).toList with
  | '+' :: rest => (digitsVal rest).map (fun n => (n : Int))
  | '-' :: rest => (digitsVal rest).map (fun n => -(n : Int))
  | cs => (digitsVal cs).map (fun n => (n : Int))

/-- Python `int(x)`; `none` models the raised `TypeError`/`ValueError`. -/
def pyInt : J → Option Int
  | .null => none
  | .b true => some 1
  | .b false => some 0
  | .i n => some n
  | .s v => parsePyInt v
  | .arr _ => none
  | .obj _ => none

/-- Token usage record returned with every LLM verdict. -/
structure Usage where
  prompt_tokens : Int
  completion_tokens : Int
  total_tokens : Int

/-- The zero-usage record reported on the grading fallback path. -/
def zeroUsage : Usage := ⟨0, 0, 0⟩

/-- Outcome of one `llm.chat.completions.create` call: `fail` is an
exception or timeout, `reply` carries the content string (already
defaulted to `""` when the API returned `None`) and the extracted
usage. -/
inductive JudgeCall where
  | fail
  | reply (content : String) (usage : Usage)

/-- `_judge_quiz_answer` (src/llm.py lines 61-115): parse the judge
reply; any reply whose stripped, lowercased content does not start with
`"true"`/`"false"` raises, and every raise falls back to strict string
equality of the stripped answers with zero usage.  The quiz question
only enters the prompt, not the decision. -/
def _judge_quiz_answer (call : JudgeCall) (_quiz_question reference_answer student_answer : String) :
    Bool × Usage :=
  match call with
  | .fail => (pyStrip student_answer == pyStrip reference_answer, zeroUsage)
  | .reply content usage =>
    let c := pyLower (pyStrip content)
    if pyStartsWith c "true" then (true, usage)
    else if pyStartsWith c "false" then (false, usage)
    else (pyStrip student_answer == pyStrip reference_answer, zeroUsage)

/-- The judge-failure condition of the claim: the call raised / timed
out, or its output does not start with a true/false token. -/
def judgeCallFailed : JudgeCall → Bool
  | .fail => true
  | .reply content _ =>
    let c := pyLower (pyStrip content)
    !(pyStartsWith c "true" || pyStartsWith c "false")

/-- C2: on judge failure the grading function returns exactly the
case-sensitive equality of the whitespace-trimmed student and reference
answers, with an all-zero usage record. -/
theorem judge_fallback_exact_match (call : JudgeCall)
    (q ref stud : String) (h : judgeCallFailed call = true) :
    _judge_quiz_answer call q ref stud =
      (pyStrip stud == pyStrip ref, zeroUsage) := by
  cases call with
  | fail => rfl
  | reply content usage =>
    simp only [judgeCallFailed, Bool.not_eq_true', Bool.or_eq_false_iff] at h
    simp only [_judge_quiz_answer, h.1, h.2, if_false, Bool.false_eq_true]

/-- Witness for C2 at concrete inputs: a failing judge grades
`"Paris"` vs `"Paris"` as correct and `"paris "` vs `"Paris"` as
incorrect, both with zero usage. -/
theorem judge_fallback_exact_match_witness :
    judgeCallFailed JudgeCall.fail = true ∧
    _judge_quiz_answer JudgeCall.fail "q" "Paris" "Paris" = (true, zeroUsage) ∧
    _judge_quiz_answer JudgeCall.fail "q" "Paris" "paris " = (false, zeroUsage) := by
  refine ⟨rfl, ?_, ?_⟩
  · rw [judge_fallback_exact_match JudgeCall.fail "q" "Paris" "Paris" rfl]
    rfl
  · rw [judge_fallback_exact_match JudgeCall.fail "q" "Paris" "paris " rfl]
    rfl

/-! ## Quiz repository (src/data/quiz.py) -/

/-- `_is_hidden_quiz` (src/data/quiz.py lines 76-77):
`bool((q or {}).get("hidden"))`. -/
def _is_hidden_quiz (q : J) : Bool := J.truthy (jget (pyOr q (J.obj [])) "hidden")

/-- Normalization applied by `_load_quizzes` to each kept record:
default a missing `processed`/`hidden` to `False`, then coerce both to
`bool`, preserving every other field and the key order. -/
def normLoadQuiz (q : J) : J :=
  let q := if jhasKey q "processed" then q else jset q "processed" (J.b false)
  let q := jset q "processed" (J.b (J.truthy (jget q "processed")))
  let q := if jhasKey q "hidden" then q else jset q "hidden" (J.b false)
  jset q "hidden" (J.b (J.truthy (jget q "hidden")))

/-- `_load_quizzes` (src/data/quiz.py lines 24-51) applied to the parsed
document: a non-list yields `[]`, records that are not dicts or miss the
`id` key are dropped, kept records are normalized.  (The missing-file and
parse-failure paths, which also yield `[]`, are the caller passing a
non-list here.) -/
def _load_quizzes (data : J) : List J :=
  match data with
  | .arr items =>
      items.filterMap (fun item =>
        if item.isObj && jhasKey item "id" then some (normLoadQuiz item) else none)
  | _ => []

/-- The canonical record written for one quiz dict by `_save_quizzes`. -/
def quizSaveRecord (q : J) : J :=
  J.obj [("id", jget q "id"), ("question", jget q "question"),
         ("answer", jget q "answer"),
         ("processed", J.b (J.truthy (jget q "processed"))),
         ("hidden", J.b (J.truthy (jget q "hidden")))]

/-- `_save_quizzes` (src/data/quiz.py lines 54-73), returning the
document atomically written: every dict record is reduced to the
canonical field set, non-dicts are dropped. -/
def _save_quizzes (quizzes : List J) : J :=
  .arr (quizzes.filterMap (fun q => if q.isObj then some (quizSaveRecord q) else none))

/-- A canonical record is kept and left unchanged by a reload. -/
theorem normLoadQuiz_saveRecord (q : J) : normLoadQuiz (quizSaveRecord q) = quizSaveRecord q := rfl

/-- Re-normalizing a canonical record is the identity. -/
theorem quizSaveRecord_idem (q : J) : quizSaveRecord (quizSaveRecord q) = quizSaveRecord q := rfl

/-- The quizzes half of the round-trip: `save (load (save X)) = save X`
for every in-memory list. -/
theorem save_load_save_quizzes (quizzes : List J) :
    _save_quizzes (_load_quizzes (_save_quizzes quizzes)) = _save_quizzes quizzes := by
  simp only [_save_quizzes, _load_quizzes, List.filterMap_filterMap]
  refine congrArg J.arr (List.filterMap_congr fun q _ => ?_)
  cases q <;> rfl

/-! ## Per-user progress store (src/data/quiz.py) -/

/-- Python `s.lstrip("-")`. -/
def lstripDashes (s : String) : String :=
  String.mk (s.toList.dropWhile (fun c => c == '-'))

/-- Python `s.isdigit()` (ASCII digits). -/
def pyIsdigit (s : String) : Bool :=
  !s.isEmpty && s.toList.all Char.isDigit

/-- Sort key produced by `_user_key_sort` (src/data/quiz.py lines
110-114): numeric-looking keys sort as `(0, int(s))` before the rest at
`(1, s)`.  `none` models the `ValueError` raised by `int(s)` when the
digit test passed but the string has more than one leading dash. -/
def _user_key_sort (k : String) : Option (Int ⊕ String) :=
  if pyIsdigit (lstripDashes k) then (parsePyInt k).map Sum.inl
  else some (Sum.inr k)

/-- Total version of the sort key; the default branch is reached only
when the whole sort raises, in which case the result is discarded. -/
def ukeyD (k : String) : Int ⊕ String := (_user_key_sort k).getD (Sum.inr k)

/-- Python tuple comparison of the two-level sort keys: the `(0, int)`
keys order by the integer and precede every `(1, str)` key; string keys
compare lexicographically by code point. -/
def ukeyLe : Int ⊕ String → Int ⊕ String → Bool
  | .inl x, .inl y => decide (x ≤ y)
  | .inl _, .inr _ => true
  | .inr _, .inl _ => false
  | .inr x, .inr y => decide (x ≤ y)

/-- The ordering relation used for every `sorted(..., key=_user_key_sort)`
call in the store. -/
def keyRel (a b : String) : Prop := ukeyLe (ukeyD a) (ukeyD b) = true

instance : DecidableRel keyRel := fun _ _ => instDecidableEqBool _ _

theorem ukeyLe_total (a b : Int ⊕ String) : ukeyLe a b = true ∨ ukeyLe b a = true := by
  rcases a with x | x <;> rcases b with y | y <;> simp only [ukeyLe, decide_eq_true_eq]
  · exact Int.le_total x y
  · exact Or.inl trivial
  · exact Or.inr trivial
  · exact le_total x y

theorem ukeyLe_trans {a b c : Int ⊕ String} (h1 : ukeyLe a b = true)
    (h2 : ukeyLe b c = true) : ukeyLe a c = true := by
  rcases a with x | x <;> rcases b with y | y <;> rcases c with z | z <;>
    simp only [ukeyLe, decide_eq_true_eq] at h1 h2 ⊢ <;> try trivial
  · exact le_trans h1 h2
  · exact le_trans h1 h2

instance : IsTotal String keyRel :=
  ⟨fun a b => ukeyLe_total (ukeyD a) (ukeyD b)⟩

instance : IsTrans String keyRel :=
  ⟨fun _ _ _ h1 h2 => ukeyLe_trans h1 h2⟩

/-- Python's stable `sorted(ks, key=_user_key_sort)`: CPython computes
every key first (so an unparsable key raises before any comparison,
modelled by `none`), then stable-sorts; the stable sort is modelled by
insertion sort, which agrees with every stable sort under a total
transitive relation. -/
def sortKeysPy (ks : List String) : Option (List String) :=
  if ks.all (fun k => (_user_key_sort k).isSome) then
    some (List.insertionSort keyRel ks)
  else none

/-- One answer-history record as normalized by `_save_quiz_state`
(src/data/quiz.py lines 146-154); `none` means the record is skipped
(neither a dict nor a string). -/
def normAnswerItem (a : J) : Option J :=
  match a with
  | .obj _ =>
      some (J.obj [("answer", J.s (pyStr (pyOr (jget a "answer") (J.s "")))),
                   ("ts", J.s (pyStr (pyOr (jget a "ts") (J.s "")))),
                   ("correct", J.b (J.truthy (jget a "correct")))])
  | .s v => some (J.obj [("answer", J.s v), ("ts", J.s ""), ("correct", J.b false)])
  | _ => none

/-- The `norm_answers` loop body of `_save_quiz_state` over the sorted
key list: keys whose value is not a list are skipped. -/
def normAnswersGo (answers : List (String × J)) : List String → List (String × J)
  | [] => []
  | k :: ks =>
      match olookup answers k with
      | some (J.arr items) =>
          (k, J.arr (items.filterMap normAnswerItem)) :: normAnswersGo answers ks
      | _ => normAnswersGo answers ks

/-- One result record as normalized by `_save_quiz_state` (lines
133-136): `correct` coerced to bool, `attempts` through
`int(r.get("attempts") or 0)`, whose possible raise is the `none`. -/
def normResult (r : J) : Option J := do
  let att ← pyInt (pyOr (jget r "attempts") (J.i 0))
  return J.obj [("correct", J.b (J.truthy (jget r "correct"))), ("attempts", J.i att)]

/-- The `norm_results` loop of `_save_quiz_state` over the sorted key
list: keys whose value is not a dict are skipped. -/
def normResultsGo (results : List (String × J)) : List String → Option (List (String × J))
  | [] => some []
  | k :: ks =>
      match olookup results k with
      | some (J.obj rkvs) => do
          let nr ← normResult (J.obj rkvs)
          let rest ← normResultsGo results ks
          return (k, nr) :: rest
      | _ => normResultsGo results ks

/-- Normalization of one user record by `_save_quiz_state` (lines
116-160): `active_quiz_id` kept as `None` or coerced to `str`, the
`results` and `answers` maps re-built over their sorted key lists. -/
def normUser (u : J) : Option J :=
  let a := jget u "active_quiz_id"
  let a2 := if a.isNull then J.null else J.s (pyStr a)
  let results := match jget u "results" with | .obj kvs => kvs | _ => []
  match sortKeysPy (results.map Prod.fst) with
  | none => none
  | some rks =>
    match normResultsGo results rks with
    | none => none
    | some nr =>
      let answers := match jget u "answers" with | .obj kvs => kvs | _ => []
      match sortKeysPy (answers.map Prod.fst) with
      | none => none
      | some aks =>
        some (J.obj [("active_quiz_id", a2), ("results", J.obj nr),
                     ("answers", J.obj (normAnswersGo answers aks))])

/-- The user loop of `_save_quiz_state` over the sorted user-key list:
keys whose value is not a dict are skipped. -/
def normUsersGo (users : List (String × J)) : List String → Option (List (String × J))
  | [] => some []
  | k :: ks =>
      match olookup users k with
      | some (J.obj ukvs) => do
          let nu ← normUser (J.obj ukvs)
          let rest ← normUsersGo users ks
          return (k, nu) :: rest
      | _ => normUsersGo users ks

/-- `_save_quiz_state` (src/data/quiz.py lines 101-165), returning the
document atomically written; `none` models a raise inside the
normalization (unparsable `attempts`, pathological sort key), which the
callers catch as a failed save. -/
def _save_quiz_state (state : List (String × J)) : Option J :=
  let users := match olookup state "users" with | some (J.obj kvs) => kvs | _ => []
  match sortKeysPy (users.map Prod.fst) with
  | none => none
  | some ks =>
    match normUsersGo users ks with
    | none => none
    | some entries => some (J.obj [("users", J.obj entries)])

/-- `_load_quiz_state` (src/data/quiz.py lines 79-98) applied to the
parsed document: always yields a dict `{"users": users}` with `users` a
dict (missing file and parse failure are the caller passing a non-dict
here). -/
def _load_quiz_state (data : J) : List (String × J) :=
  match data with
  | .obj _ =>
      match jget data "users" with
      | .obj ukvs => [("users", J.obj ukvs)]
      | _ => [("users", J.obj [])]
  | _ => [("users", J.obj [])]

/-! ### Stability of the save-time normalization -/

/-- A successful key sort sorts again to itself, and so does any
sublist of its output (the normalization loops can drop keys). -/
theorem sortKeysPy_sublist {ks l l' : List String}
    (h : sortKeysPy ks = some l) (hsub : List.Sublist l' l) :
    sortKeysPy l' = some l' := by
  unfold sortKeysPy at h ⊢
  by_cases hall : ks.all (fun k => (_user_key_sort k).isSome) = true
  · rw [if_pos hall] at h
    have hl : l = List.insertionSort keyRel ks := (Option.some.inj h).symm
    have hvalid : l'.all (fun k => (_user_key_sort k).isSome) = true := by
      rw [List.all_eq_true]
      intro x hx
      have hxl : x ∈ l := hsub.subset hx
      have hxks : x ∈ ks := by
        rw [hl] at hxl
        exact (List.perm_insertionSort keyRel ks).subset hxl
      exact (List.all_eq_true.mp hall) x hxks
    rw [if_pos hvalid]
    have hsorted : l.Sorted keyRel := by
      rw [hl]; exact List.sorted_insertionSort keyRel ks
    have : l'.Sorted keyRel := List.Pairwise.sublist hsub hsorted
    rw [List.Sorted.insertionSort_eq this]
  · rw [if_neg hall] at h
    exact absurd h (by simp)

/-- `str(x or "")` on a string value is that string. -/
theorem pyStr_pyOr_s (x : String) : pyStr (pyOr (J.s x) (J.s "")) = x := by
  by_cases h : x = ""
  · subst h; rfl
  · have : (J.s x).truthy = true := by
      simp only [J.truthy, Bool.not_eq_true']
      exact (Bool.not_eq_true _).mp (fun he => h ((String.isEmpty_iff x).mp he))
    simp [pyOr, this, pyStr]

/-- A normalized answer record is a fixed point of the answer
normalization. -/
theorem normAnswerItem_fix {a o : J} (h : normAnswerItem a = some o) :
    normAnswerItem o = some o := by
  cases a with
  | obj kvs =>
    have ho : o = J.obj [("answer", J.s (pyStr (pyOr (jget (J.obj kvs) "answer") (J.s "")))),
                         ("ts", J.s (pyStr (pyOr (jget (J.obj kvs) "ts") (J.s "")))),
                         ("correct", J.b (J.truthy (jget (J.obj kvs) "correct")))] :=
      (Option.some.inj h).symm
    subst ho
    simp [normAnswerItem, jget, olookup, pyStr_pyOr_s, J.truthy]
  | s v =>
    have ho : o = J.obj [("answer", J.s v), ("ts", J.s ""), ("correct", J.b false)] :=
      (Option.some.inj h).symm
    subst ho
    simp [normAnswerItem, jget, olookup, pyStr_pyOr_s, J.truthy]
  | null => exact absurd h (by simp [normAnswerItem])
  | b x => exact absurd h (by simp [normAnswerItem])
  | i n => exact absurd h (by simp [normAnswerItem])
  | arr xs => exact absurd h (by simp [normAnswerItem])

/-- `filterMap` by a partial function whose outputs are fixed points is
idempotent. -/
theorem filterMap_fix {f : J → Option J}
    (hf : ∀ a o, f a = some o → f o = some o) (l : List J) :
    (l.filterMap f).filterMap f = l.filterMap f := by
  induction l with
  | nil => rfl
  | cons a rest ih =>
    rcases hfa : f a with _ | o
    · simp [List.filterMap_cons, hfa, ih]
    · simp [List.filterMap_cons, hfa, hf a o hfa, ih]

/-- A normalized result record is a fixed point of the result
normalization. -/
theorem normResult_fix (c : Bool) (n : Int) :
    normResult (J.obj [("correct", J.b c), ("attempts", J.i n)]) =
      some (J.obj [("correct", J.b c), ("attempts", J.i n)]) := by
  by_cases h : n = 0 <;>
    simp [normResult, jget, olookup, pyOr, J.truthy, pyInt, h]

/-- Value the answers loop stores for a key (a function of the key). -/
def answersNormAt (answers : List (String × J)) (k : String) : J :=
  match olookup answers k with
  | some (J.arr items) => J.arr (items.filterMap normAnswerItem)
  | _ => J.null

/-- Value the results loop stores for a key. -/
def resultsNormAt (results : List (String × J)) (k : String) : J :=
  match olookup results k with
  | some r => (normResult r).getD J.null
  | none => J.null

/-- Value the users loop stores for a key. -/
def usersNormAt (users : List (String × J)) (k : String) : J :=
  match olookup users k with
  | some u => (normUser u).getD J.null
  | none => J.null

/-- In an association list whose values are a function of their key,
lookup of any member key returns that member's value (first occurrence
has the same value as any duplicate). -/
theorem olookup_self_of_functional {kvs : List (String × J)} {f : String → J}
    (hfun : ∀ p ∈ kvs, p.2 = f p.1) :
    ∀ p ∈ kvs, olookup kvs p.1 = some p.2 := by
  induction kvs with
  | nil => intro p hp; cases hp
  | cons q rest ih =>
    intro p hp
    have hq : q.2 = f q.1 := hfun q (List.mem_cons_self q rest)
    rcases List.mem_cons.mp hp with hpq | hprest
    · subst hpq
      show olookup (p :: rest) p.1 = some p.2
      rcases p with ⟨k, v⟩
      simp [olookup]
    · rcases q with ⟨qk, qv⟩
      show olookup ((qk, qv) :: rest) p.1 = some p.2
      by_cases hk : qk == p.1
      · have hkeq : qk = p.1 := by simpa using hk
        have hp2 : p.2 = f p.1 := hfun p hp
        rw [olookup, if_pos hk, hp2, ← hkeq, ← hq]
      · rw [olookup, if_neg (by simpa using (by simpa using hk : ¬ qk = p.1))]
        exact ih (fun r hr => hfun r (List.mem_cons_of_mem _ hr)) p hprest

/-- The answers loop output: keys form a sublist of the processed key
list and every value is the normalization at its key. -/
theorem normAnswersGo_spec (answers : List (String × J)) :
    ∀ ks : List String,
      List.Sublist ((normAnswersGo answers ks).map Prod.fst) ks ∧
      (∀ p ∈ normAnswersGo answers ks, p.2 = answersNormAt answers p.1) ∧
      (∀ p ∈ normAnswersGo answers ks,
        ∃ items : List J, p.2 = J.arr (items.filterMap normAnswerItem)) := by
  intro ks
  induction ks with
  | nil => refine ⟨List.Sublist.refl _, ?_, ?_⟩ <;> exact fun p hp => nomatch hp
  | cons k rest ih =>
    unfold normAnswersGo
    rcases hl : olookup answers k with _ | v
    · exact ⟨ih.1.cons k, ih.2⟩
    · cases v with
      | arr items =>
        refine ⟨ih.1.cons₂ k, ?_, ?_⟩
        · intro p hp
          rcases List.mem_cons.mp hp with hpk | hprest
          · subst hpk
            simp [answersNormAt, hl]
          · exact ih.2.1 p hprest
        · intro p hp
          rcases List.mem_cons.mp hp with hpk | hprest
          · subst hpk
            exact ⟨items, rfl⟩
          · exact ih.2.2 p hprest
      | null => exact ⟨ih.1.cons k, ih.2⟩
      | b x => exact ⟨ih.1.cons k, ih.2⟩
      | i n => exact ⟨ih.1.cons k, ih.2⟩
      | s v => exact ⟨ih.1.cons k, ih.2⟩
      | obj kvs => exact ⟨ih.1.cons k, ih.2⟩

/-- Re-running the answers loop over its own output (keys and lookups
taken in the output itself) reproduces it. -/
theorem normAnswersGo_self (kvs : List (String × J)) :
    ∀ tail : List (String × J),
      (∀ p ∈ tail, olookup kvs p.1 = some p.2) →
      (∀ p ∈ tail, ∃ items : List J, p.2 = J.arr (items.filterMap normAnswerItem)) →
      normAnswersGo kvs (tail.map Prod.fst) = tail := by
  intro tail
  induction tail with
  | nil => intro _ _; rfl
  | cons q rest ih =>
    intro hlk hshape
    rcases q with ⟨k, v⟩
    rcases hshape ⟨k, v⟩ (List.mem_cons_self _ _) with ⟨items, hv⟩
    have hkv : olookup kvs k = some v := hlk ⟨k, v⟩ (List.mem_cons_self _ _)
    simp only at hv
    subst hv
    have step : normAnswersGo kvs (k :: rest.map Prod.fst)
        = (k, J.arr ((items.filterMap normAnswerItem).filterMap normAnswerItem)) ::
            normAnswersGo kvs (rest.map Prod.fst) := by
      rw [normAnswersGo, hkv]
    show normAnswersGo kvs (k :: rest.map Prod.fst) =
      (k, J.arr (items.filterMap normAnswerItem)) :: rest
    rw [step, filterMap_fix (fun a o h => normAnswerItem_fix h) items,
      ih (fun p hp => hlk p (List.mem_cons_of_mem _ hp))
        (fun p hp => hshape p (List.mem_cons_of_mem _ hp))]

/-- The result normalization only produces canonical records. -/
theorem normResult_shape {r v : J} (h : normResult r = some v) :
    ∃ c n, v = J.obj [("correct", J.b c), ("attempts", J.i n)] := by
  unfold normResult at h
  rcases hint : pyInt (pyOr (jget r "attempts") (J.i 0)) with _ | att
  · rw [hint] at h; exact absurd h (by simp)
  · rw [hint] at h
    exact ⟨J.truthy (jget r "correct"), att, (Option.some.inj h).symm⟩

/-- The results loop output: keys form a sublist of the processed key
list, values are the normalization at their key, and every value is a
canonical record. -/
theorem normResultsGo_spec (results : List (String × J)) :
    ∀ (ks : List String) (nr : List (String × J)),
      normResultsGo results ks = some nr →
      List.Sublist (nr.map Prod.fst) ks ∧
      (∀ p ∈ nr, p.2 = resultsNormAt results p.1) ∧
      (∀ p ∈ nr, ∃ c n, p.2 = J.obj [("correct", J.b c), ("attempts", J.i n)]) := by
  intro ks
  induction ks with
  | nil =>
    intro nr h
    have hnr : nr = [] := (Option.some.inj h).symm
    subst hnr
    refine ⟨List.Sublist.refl _, ?_, ?_⟩ <;> exact fun p hp => nomatch hp
  | cons k rest ih =>
    intro nr h
    rw [normResultsGo] at h
    rcases hl : olookup results k with _ | v
    · rw [hl] at h
      exact ⟨(ih nr h).1.cons k, (ih nr h).2.1, (ih nr h).2.2⟩
    · rw [hl] at h
      cases v with
      | obj rkvs =>
        have hred : (match some (J.obj rkvs) with
            | some (J.obj rkvs) => do
                let nv ← normResult (J.obj rkvs)
                let tl ← normResultsGo results rest
                pure ((k, nv) :: tl)
            | _ => normResultsGo results rest) =
            (normResult (J.obj rkvs)).bind (fun nv =>
              (normResultsGo results rest).bind (fun tl => some ((k, nv) :: tl))) := rfl
        rw [hred] at h
        rw [Option.bind_eq_some] at h
        obtain ⟨nv, hnv, h⟩ := h
        rw [Option.bind_eq_some] at h
        obtain ⟨tl, htl, h⟩ := h
        have hnr : nr = (k, nv) :: tl := (Option.some.inj h).symm
        subst hnr
        refine ⟨(ih tl htl).1.cons₂ k, ?_, ?_⟩
        · intro p hp
          rcases List.mem_cons.mp hp with hpk | hprest
          · subst hpk
            simp [resultsNormAt, hl, hnv]
          · exact (ih tl htl).2.1 p hprest
        · intro p hp
          rcases List.mem_cons.mp hp with hpk | hprest
          · subst hpk
            exact normResult_shape hnv
          · exact (ih tl htl).2.2 p hprest
      | null => exact ⟨(ih nr h).1.cons k, (ih nr h).2.1, (ih nr h).2.2⟩
      | b x => exact ⟨(ih nr h).1.cons k, (ih nr h).2.1, (ih nr h).2.2⟩
      | i n => exact ⟨(ih nr h).1.cons k, (ih nr h).2.1, (ih nr h).2.2⟩
      | s v => exact ⟨(ih nr h).1.cons k, (ih nr h).2.1, (ih nr h).2.2⟩
      | arr xs => exact ⟨(ih nr h).1.cons k, (ih nr h).2.1, (ih nr h).2.2⟩

/-- Re-running the results loop over its own output reproduces it. -/
theorem normResultsGo_self (kvs : List (String × J)) :
    ∀ tail : List (String × J),
      (∀ p ∈ tail, olookup kvs p.1 = some p.2) →
      (∀ p ∈ tail, ∃ c n, p.2 = J.obj [("correct", J.b c), ("attempts", J.i n)]) →
      normResultsGo kvs (tail.map Prod.fst) = some tail := by
  intro tail
  induction tail with
  | nil => intro _ _; rfl
  | cons q rest ih =>
    intro hlk hshape
    rcases q with ⟨k, v⟩
    rcases hshape ⟨k, v⟩ (List.mem_cons_self _ _) with ⟨c, n, hv⟩
    have hkv : olookup kvs k = some v := hlk ⟨k, v⟩ (List.mem_cons_self _ _)
    simp only at hv
    subst hv
    show normResultsGo kvs (k :: rest.map Prod.fst) =
      some ((k, J.obj [("correct", J.b c), ("attempts", J.i n)]) :: rest)
    rw [normResultsGo, hkv]
    show (normResult (J.obj [("correct", J.b c), ("attempts", J.i n)])).bind
        (fun nv => (normResultsGo kvs (rest.map Prod.fst)).bind
          (fun tl => some ((k, nv) :: tl))) = _
    rw [normResult_fix c n, Option.some_bind,
      ih (fun p hp => hlk p (List.mem_cons_of_mem _ hp))
        (fun p hp => hshape p (List.mem_cons_of_mem _ hp)),
      Option.some_bind]

/-- Inversion of one successful user normalization. -/
theorem normUser_inv {u nu : J} (h : normUser u = some nu) :
    ∃ rks nr aks,
      sortKeysPy ((match jget u "results" with
        | .obj kvs => kvs | _ => []).map Prod.fst) = some rks ∧
      normResultsGo (match jget u "results" with
        | .obj kvs => kvs | _ => []) rks = some nr ∧
      sortKeysPy ((match jget u "answers" with
        | .obj kvs => kvs | _ => []).map Prod.fst) = some aks ∧
      nu = J.obj [("active_quiz_id",
          if (jget u "active_quiz_id").isNull then J.null
          else J.s (pyStr (jget u "active_quiz_id"))),
        ("results", J.obj nr),
        ("answers", J.obj (normAnswersGo (match jget u "answers" with
          | .obj kvs => kvs | _ => []) aks))] := by
  unfold normUser at h
  simp only [] at h
  split at h
  · exact absurd h (by simp)
  · rename_i rks h1
    split at h
    · exact absurd h (by simp)
    · rename_i nr h2
      split at h
      · exact absurd h (by simp)
      · rename_i aks h3
        exact ⟨rks, nr, aks, h1, h2, h3, (Option.some.inj h).symm⟩

/-- Normalizing an already-normalized user record is the identity. -/
theorem normUser_idem {u nu : J} (h : normUser u = some nu) : normUser nu = some nu := by
  obtain ⟨rks, nr, aks, hrks, hnr, haks, hnu⟩ := normUser_inv h
  set a2 := if (jget u "active_quiz_id").isNull then J.null
    else J.s (pyStr (jget u "active_quiz_id")) with ha2
  set na := normAnswersGo (match jget u "answers" with
    | .obj kvs => kvs | _ => []) aks with hna
  -- the three stored fields of nu
  have hres : (match jget nu "results" with | .obj kvs => kvs | _ => []) = nr := by
    rw [hnu]; rfl
  have hans : (match jget nu "answers" with | .obj kvs => kvs | _ => []) = na := by
    rw [hnu]; rfl
  have hact : jget nu "active_quiz_id" = a2 := by
    rw [hnu]; rfl
  -- the re-coerced active id
  have hact2 : (if (jget nu "active_quiz_id").isNull then J.null
      else J.s (pyStr (jget nu "active_quiz_id"))) = a2 := by
    rw [hact, ha2]
    rcases hn : (jget u "active_quiz_id").isNull with _ | _
    · simp only [Bool.false_eq_true, if_false, J.isNull, pyStr]
    · simp only [if_true, J.isNull]
  -- keys of nr re-sort to themselves
  have hnrkeys : sortKeysPy (nr.map Prod.fst) = some (nr.map Prod.fst) :=
    sortKeysPy_sublist hrks (normResultsGo_spec _ rks nr hnr).1
  -- nr re-normalizes to itself
  have hnrself : normResultsGo nr (nr.map Prod.fst) = some nr := by
    refine normResultsGo_self nr nr ?_ ((normResultsGo_spec _ rks nr hnr).2.2)
    exact olookup_self_of_functional ((normResultsGo_spec _ rks nr hnr).2.1)
  -- keys of na re-sort to themselves
  have hnakeys : sortKeysPy (na.map Prod.fst) = some (na.map Prod.fst) :=
    sortKeysPy_sublist haks (normAnswersGo_spec _ aks).1
  -- na re-normalizes to itself
  have hnaself : normAnswersGo na (na.map Prod.fst) = na := by
    refine normAnswersGo_self na na ?_ ?_
    · exact olookup_self_of_functional ((normAnswersGo_spec _ aks).2.1)
    · exact (normAnswersGo_spec _ aks).2.2
  unfold normUser
  simp only [hres, hans, hact2, hnrkeys, hnrself, hnakeys, hnaself]
  rw [hnu]

/-- The users loop output: keys form a sublist of the processed key
list, values are the normalization at their key, and every value is a
successful user normalization. -/
theorem normUsersGo_spec (users : List (String × J)) :
    ∀ (ks : List String) (entries : List (String × J)),
      normUsersGo users ks = some entries →
      List.Sublist (entries.map Prod.fst) ks ∧
      (∀ p ∈ entries, p.2 = usersNormAt users p.1) ∧
      (∀ p ∈ entries, ∃ u, normUser u = some p.2) := by
  intro ks
  induction ks with
  | nil =>
    intro entries h
    have he : entries = [] := (Option.some.inj h).symm
    subst he
    refine ⟨List.Sublist.refl _, ?_, ?_⟩ <;> exact fun p hp => nomatch hp
  | cons k rest ih =>
    intro entries h
    rw [normUsersGo] at h
    rcases hl : olookup users k with _ | v
    · rw [hl] at h
      exact ⟨(ih entries h).1.cons k, (ih entries h).2.1, (ih entries h).2.2⟩
    · rw [hl] at h
      cases v with
      | obj ukvs =>
        have hred : (match some (J.obj ukvs) with
            | some (J.obj ukvs) => do
                let nu ← normUser (J.obj ukvs)
                let tl ← normUsersGo users rest
                pure ((k, nu) :: tl)
            | _ => normUsersGo users rest) =
            (normUser (J.obj ukvs)).bind (fun nu =>
              (normUsersGo users rest).bind (fun tl => some ((k, nu) :: tl))) := rfl
        rw [hred] at h
        rw [Option.bind_eq_some] at h
        obtain ⟨nu, hnu, h⟩ := h
        rw [Option.bind_eq_some] at h
        obtain ⟨tl, htl, h⟩ := h
        have he : entries = (k, nu) :: tl := (Option.some.inj h).symm
        subst he
        refine ⟨(ih tl htl).1.cons₂ k, ?_, ?_⟩
        · intro p hp
          rcases List.mem_cons.mp hp with hpk | hprest
          · subst hpk
            simp [usersNormAt, hl, hnu]
          · exact (ih tl htl).2.1 p hprest
        · intro p hp
          rcases List.mem_cons.mp hp with hpk | hprest
          · subst hpk
            exact ⟨J.obj ukvs, hnu⟩
          · exact (ih tl htl).2.2 p hprest
      | null => exact ⟨(ih entries h).1.cons k, (ih entries h).2.1, (ih entries h).2.2⟩
      | b x => exact ⟨(ih entries h).1.cons k, (ih entries h).2.1, (ih entries h).2.2⟩
      | i n => exact ⟨(ih entries h).1.cons k, (ih entries h).2.1, (ih entries h).2.2⟩
      | s v => exact ⟨(ih entries h).1.cons k, (ih entries h).2.1, (ih entries h).2.2⟩
      | arr xs => exact ⟨(ih entries h).1.cons k, (ih entries h).2.1, (ih entries h).2.2⟩

/-- Re-running the users loop over its own output reproduces it. -/
theorem normUsersGo_self (kvs : List (String × J)) :
    ∀ tail : List (String × J),
      (∀ p ∈ tail, olookup kvs p.1 = some p.2) →
      (∀ p ∈ tail, (∃ ukvs : List (String × J), p.2 = J.obj ukvs) ∧
        normUser p.2 = some p.2) →
      normUsersGo kvs (tail.map Prod.fst) = some tail := by
  intro tail
  induction tail with
  | nil => intro _ _; rfl
  | cons q rest ih =>
    intro hlk hshape
    rcases q with ⟨k, v⟩
    rcases hshape ⟨k, v⟩ (List.mem_cons_self _ _) with ⟨⟨ukvs, hobj⟩, hfix⟩
    have hkv : olookup kvs k = some v := hlk ⟨k, v⟩ (List.mem_cons_self _ _)
    simp only at hobj hfix
    subst hobj
    show normUsersGo kvs (k :: rest.map Prod.fst) = some ((k, J.obj ukvs) :: rest)
    rw [normUsersGo, hkv]
    show (normUser (J.obj ukvs)).bind (fun nu =>
        (normUsersGo kvs (rest.map Prod.fst)).bind (fun tl => some ((k, nu) :: tl))) = _
    rw [hfix, Option.some_bind,
      ih (fun p hp => hlk p (List.mem_cons_of_mem _ hp))
        (fun p hp => hshape p (List.mem_cons_of_mem _ hp)),
      Option.some_bind]

/-- The user-state half of the round-trip: a successfully saved state
document, re-loaded and re-saved, produces the identical document. -/
theorem save_load_save_state {state : List (String × J)} {doc : J}
    (h : _save_quiz_state state = some doc) :
    _save_quiz_state (_load_quiz_state doc) = some doc := by
  unfold _save_quiz_state at h
  simp only [] at h
  split at h
  · exact absurd h (by simp)
  · rename_i ks h1
    split at h
    · exact absurd h (by simp)
    · rename_i entries h2
      have hdoc : doc = J.obj [("users", J.obj entries)] := (Option.some.inj h).symm
      have hload : _load_quiz_state doc = [("users", J.obj entries)] := by
        rw [hdoc]; rfl
      have hspec := normUsersGo_spec _ ks entries h2
      have hkeys2 : sortKeysPy (entries.map Prod.fst) = some (entries.map Prod.fst) :=
        sortKeysPy_sublist h1 hspec.1
      have hself2 : normUsersGo entries (entries.map Prod.fst) = some entries := by
        refine normUsersGo_self entries entries
          (olookup_self_of_functional hspec.2.1) ?_
        intro p hp
        obtain ⟨u, hu⟩ := hspec.2.2 p hp
        have hfix := normUser_idem hu
        obtain ⟨rks, nr, aks, _, _, _, hshape⟩ := normUser_inv hu
        exact ⟨⟨_, hshape⟩, hfix⟩
      rw [hload]
      unfold _save_quiz_state
      simp [olookup, hkeys2, hself2]
      rw [hdoc]

/-- C8: the claim's statement over both persisted documents.  The
quizzes half holds for every in-memory list; the user-state half for
every state whose save succeeds (an in-memory map the save raises on has
no persisted document at all). -/
theorem round_trip_persistence (quizzes : List J) (state : List (String × J)) (doc : J)
    (h : _save_quiz_state state = some doc) :
    _save_quizzes (_load_quizzes (_save_quizzes quizzes)) = _save_quizzes quizzes ∧
    _save_quiz_state (_load_quiz_state doc) = some doc :=
  ⟨save_load_save_quizzes quizzes, save_load_save_state h⟩

/-- Concrete quiz list for the C8 witness (extra out-of-band field,
bool-coercible flags). -/
def rtQuizzesW : List J :=
  [J.obj [("id", J.s "q1"), ("question", J.s "2+2?"), ("answer", J.s "4"),
          ("processed", J.i 1), ("hidden", J.b false), ("extra", J.s "dropped")],
   J.s "not a quiz record"]

/-- Concrete user-state document for the C8 witness. -/
def rtStateW : List (String × J) :=
  [("users", J.obj [("7", J.obj
      [("active_quiz_id", J.s "q1"),
       ("results", J.obj [("q1", J.obj [("correct", J.b true), ("attempts", J.i 2)])]),
       ("answers", J.obj [("q1", J.arr
          [J.obj [("answer", J.s "4"), ("ts", J.s "t0"), ("correct", J.b true)],
           J.s "bare string answer"])])])])]

/-- The saved document for `rtStateW`. -/
def rtDocW : J :=
  J.obj [("users", J.obj [("7", J.obj
      [("active_quiz_id", J.s "q1"),
       ("results", J.obj [("q1", J.obj [("correct", J.b true), ("attempts", J.i 2)])]),
       ("answers", J.obj [("q1", J.arr
          [J.obj [("answer", J.s "4"), ("ts", J.s "t0"), ("correct", J.b true)],
           J.obj [("answer", J.s "bare string answer"), ("ts", J.s ""),
                  ("correct", J.b false)]])])])])]

/-- Witness for C8 at a concrete quiz list and state document. -/
theorem round_trip_persistence_witness :
    _save_quiz_state rtStateW = some rtDocW ∧
    (_save_quizzes (_load_quizzes (_save_quizzes rtQuizzesW)) = _save_quizzes rtQuizzesW ∧
     _save_quiz_state (_load_quiz_state rtDocW) = some rtDocW) :=
  ⟨rfl, round_trip_persistence rtQuizzesW rtStateW rtDocW rfl⟩

/-! ### Association-list facts used by the get-or-create contract -/

theorem olookup_oset_self (kvs : List (String × J)) (k : String) (v : J) :
    olookup (oset kvs k v) k = some v := by
  induction kvs with
  | nil => simp [oset, olookup]
  | cons q rest ih =>
    rcases q with ⟨k0, v0⟩
    by_cases hk : k0 = k
    · subst hk; simp [oset, olookup]
    · have hkb : (k0 == k) = false := beq_eq_false_iff_ne.mpr hk
      simp only [oset, hkb, Bool.false_eq_true, if_false, olookup, ih]

theorem olookup_oset_ne (kvs : List (String × J)) (k k' : String) (v : J)
    (h : ¬ k' = k) : olookup (oset kvs k v) k' = olookup kvs k' := by
  have hks : (k == k') = false := beq_eq_false_iff_ne.mpr (fun he => h he.symm)
  induction kvs with
  | nil => simp [oset, olookup, hks]
  | cons q rest ih =>
    rcases q with ⟨k0, v0⟩
    by_cases hk : k0 = k
    · subst hk
      simp [oset, olookup, hks]
    · have hkb : (k0 == k) = false := beq_eq_false_iff_ne.mpr hk
      simp only [oset, hkb, Bool.false_eq_true, if_false, olookup, ih]

theorem oset_self {kvs : List (String × J)} {k : String} {v : J}
    (h : olookup kvs k = some v) : oset kvs k v = kvs := by
  induction kvs with
  | nil => simp [olookup] at h
  | cons q rest ih =>
    rcases q with ⟨k0, v0⟩
    by_cases hk : k0 = k
    · subst hk
      have hv : v0 = v := by
        rw [olookup, if_pos (by simp)] at h
        exact Option.some.inj h
      simp [oset, hv]
    · have hkb : (k0 == k) = false := beq_eq_false_iff_ne.mpr hk
      rw [olookup, if_neg (by simp [hkb])] at h
      simp [oset, hkb, ih h]

theorem jget_jset_self (kvs : List (String × J)) (k : String) (v : J) :
    jget (jset (J.obj kvs) k v) k = v := by
  simp [jset, jget, olookup_oset_self]

theorem jget_jset_ne (kvs : List (String × J)) (k k' : String) (v : J)
    (h : ¬ k' = k) : jget (jset (J.obj kvs) k v) k' = jget (J.obj kvs) k' := by
  simp [jset, jget, olookup_oset_ne kvs k k' v h]

theorem jhasKey_oset_self (kvs : List (String × J)) (k : String) (v : J) :
    jhasKey (J.obj (oset kvs k v)) k = true := by
  induction kvs with
  | nil => simp [oset, jhasKey]
  | cons q rest ih =>
    rcases q with ⟨k0, v0⟩
    by_cases hk : k0 = k
    · subst hk; simp [oset, jhasKey]
    · have hkb : (k0 == k) = false := beq_eq_false_iff_ne.mpr hk
      simp only [oset, hkb, Bool.false_eq_true, if_false, jhasKey, List.any_cons] at ih ⊢
      simp [ih]

theorem jhasKey_jset_ne (kvs : List (String × J)) (k k' : String) (v : J)
    (h : ¬ k' = k) :
    jhasKey (jset (J.obj kvs) k v) k' = jhasKey (J.obj kvs) k' := by
  have hks : (k == k') = false := beq_eq_false_iff_ne.mpr (fun he => h he.symm)
  induction kvs with
  | nil => simp [jset, oset, jhasKey, hks]
  | cons q rest ih =>
    rcases q with ⟨k0, v0⟩
    by_cases hk : k0 = k
    · subst hk
      simp [jset, oset, jhasKey, hks]
    · have hkb : (k0 == k) = false := beq_eq_false_iff_ne.mpr hk
      simp only [jset, oset, hkb, Bool.false_eq_true, if_false, jhasKey,
        List.any_cons] at ih ⊢
      rw [ih]

theorem jget_isObj_hasKey {kvs : List (String × J)} {k : String}
    (h : (jget (J.obj kvs) k).isObj = true) : jhasKey (J.obj kvs) k = true := by
  induction kvs with
  | nil => simp [jget, olookup, Option.getD, J.isObj] at h
  | cons q rest ih =>
    rcases q with ⟨k0, v0⟩
    by_cases hk : k0 = k
    · subst hk; simp [jhasKey]
    · have hkb : (k0 == k) = false := beq_eq_false_iff_ne.mpr hk
      rw [jget, olookup, if_neg (by simp [hkb])] at h
      simp only [jhasKey, List.any_cons, hkb, Bool.false_or]
      exact ih h

/-! ## Get-or-create of the per-user entry (src/data/quiz.py lines 168-184) -/

theorem jset_isObj {o : J} (h : o.isObj = true) (k : String) (v : J) :
    (jset o k v).isObj = true := by
  cases o <;> simp_all [J.isObj, jset]

theorem jget_jset_self_of {o : J} (h : o.isObj = true) (k : String) (v : J) :
    jget (jset o k v) k = v := by
  cases o with
  | obj kvs => exact jget_jset_self kvs k v
  | null => simp [J.isObj] at h
  | b x => simp [J.isObj] at h
  | i n => simp [J.isObj] at h
  | s v2 => simp [J.isObj] at h
  | arr xs => simp [J.isObj] at h

theorem jget_jset_ne_of {o : J} (h : o.isObj = true) (k k' : String) (v : J)
    (hne : ¬ k' = k) : jget (jset o k v) k' = jget o k' := by
  cases o with
  | obj kvs => exact jget_jset_ne kvs k k' v hne
  | null => simp [J.isObj] at h
  | b x => simp [J.isObj] at h
  | i n => simp [J.isObj] at h
  | s v2 => simp [J.isObj] at h
  | arr xs => simp [J.isObj] at h

theorem jhasKey_jset_self_of {o : J} (h : o.isObj = true) (k : String) (v : J) :
    jhasKey (jset o k v) k = true := by
  cases o with
  | obj kvs => exact jhasKey_oset_self kvs k v
  | null => simp [J.isObj] at h
  | b x => simp [J.isObj] at h
  | i n => simp [J.isObj] at h
  | s v2 => simp [J.isObj] at h
  | arr xs => simp [J.isObj] at h

theorem jhasKey_jset_ne_of {o : J} (h : o.isObj = true) (k k' : String) (v : J)
    (hne : ¬ k' = k) : jhasKey (jset o k v) k' = jhasKey o k' := by
  cases o with
  | obj kvs => exact jhasKey_jset_ne kvs k k' v hne
  | null => simp [J.isObj] at h
  | b x => simp [J.isObj] at h
  | i n => simp [J.isObj] at h
  | s v2 => simp [J.isObj] at h
  | arr xs => simp [J.isObj] at h

theorem jget_isObj_hasKey_of {o : J} (h : (jget o k).isObj = true) :
    jhasKey o k = true := by
  cases o with
  | obj kvs => exact jget_isObj_hasKey h
  | null => simp [jget, J.isObj] at h
  | b x => simp [jget, J.isObj] at h
  | i n => simp [jget, J.isObj] at h
  | s v2 => simp [jget, J.isObj] at h
  | arr xs => simp [jget, J.isObj] at h

/-- The fresh entry seeded for an absent or non-dict user value. -/
def defaultUserEntry : J :=
  J.obj [("active_quiz_id", J.null), ("results", J.obj []), ("answers", J.obj [])]

/-- The in-place field normalization applied by `_get_user_quiz_state`
to the (possibly missing) user value: replace a non-dict entry by the
default, force `results`/`answers` to dicts, seed a missing
`active_quiz_id` key with `None`. -/
def fixField (u : J) (k : String) : J :=
  if !(jhasKey u k) || !(jget u k).isObj then jset u k (J.obj []) else u

def fixActive (u : J) : J :=
  if jhasKey u "active_quiz_id" then u else jset u "active_quiz_id" J.null

def userEntryFix (u0 : J) : J :=
  fixActive (fixField (fixField (if u0.isObj then u0 else defaultUserEntry) "results") "answers")

/-- `_get_user_quiz_state` (src/data/quiz.py lines 168-184): ensures
`state["users"]` is a dict, seeds/normalizes the entry keyed by
`str(int(user_id))`, stores it back (Python does this via aliasing) and
returns it together with the updated state. -/
def usersOfState (state : List (String × J)) : List (String × J) :=
  match olookup state "users" with
  | some (J.obj kvs) => kvs
  | _ => []

def _get_user_quiz_state (state : List (String × J)) (user_id : Int) :
    List (String × J) × J :=
  let users := usersOfState state
  let key := toString user_id
  let u := userEntryFix ((olookup users key).getD J.null)
  (oset state "users" (J.obj (oset users key u)), u)

theorem fixField_isObj {u : J} (h : u.isObj = true) (k : String) :
    (fixField u k).isObj = true := by
  unfold fixField
  split
  · exact jset_isObj h k (J.obj [])
  · exact h

theorem fixField_get_isObj {u : J} (h : u.isObj = true) (k : String) :
    (jget (fixField u k) k).isObj = true := by
  unfold fixField
  by_cases hB : (jget u k).isObj = true
  · by_cases hA : jhasKey u k = true
    · rw [if_neg (by simp [hA, hB])]
      exact hB
    · rw [if_pos (by simp [Bool.not_eq_true] at hA; simp [hA]), jget_jset_self_of h]
      rfl
  · rw [if_pos (by simp [Bool.not_eq_true] at hB; simp [hB]), jget_jset_self_of h]
    rfl

theorem fixField_get_ne {u : J} (h : u.isObj = true) (k k' : String) (hne : ¬ k' = k) :
    jget (fixField u k) k' = jget u k' := by
  unfold fixField
  split
  · exact jget_jset_ne_of h k k' (J.obj []) hne
  · rfl

theorem fixField_hasKey_ne {u : J} (h : u.isObj = true) (k k' : String) (hne : ¬ k' = k) :
    jhasKey (fixField u k) k' = jhasKey u k' := by
  unfold fixField
  split
  · exact jhasKey_jset_ne_of h k k' (J.obj []) hne
  · rfl

theorem fixField_of_ok {u : J} {k : String} (hB : (jget u k).isObj = true) :
    fixField u k = u := by
  unfold fixField
  rw [if_neg (by simp [jget_isObj_hasKey_of hB, hB])]

theorem fixField_get_of_bad {u : J} (h : u.isObj = true) {k : String}
    (hB : (jget u k).isObj = false) : jget (fixField u k) k = J.obj [] := by
  unfold fixField
  rw [if_pos (by simp [hB]), jget_jset_self_of h]

theorem fixActive_isObj {u : J} (h : u.isObj = true) : (fixActive u).isObj = true := by
  unfold fixActive
  split
  · exact h
  · exact jset_isObj h _ _

theorem fixActive_hasKey {u : J} (h : u.isObj = true) :
    jhasKey (fixActive u) "active_quiz_id" = true := by
  unfold fixActive
  split
  · assumption
  · exact jhasKey_jset_self_of h _ _

theorem fixActive_get_ne {u : J} (h : u.isObj = true) (k' : String)
    (hne : ¬ k' = "active_quiz_id") : jget (fixActive u) k' = jget u k' := by
  unfold fixActive
  split
  · rfl
  · exact jget_jset_ne_of h _ k' _ hne

theorem fixActive_of_has {u : J} (h : jhasKey u "active_quiz_id" = true) :
    fixActive u = u := by
  unfold fixActive
  rw [if_pos h]

theorem fixActive_get_of_missing {u : J} (h : u.isObj = true)
    (hm : jhasKey u "active_quiz_id" = false) :
    jget (fixActive u) "active_quiz_id" = J.null := by
  unfold fixActive
  rw [if_neg (by simp [hm]), jget_jset_self_of h]

/-- The seeded default is already fully normalized. -/
theorem defaultUserEntry_facts :
    defaultUserEntry.isObj = true ∧
    (jget defaultUserEntry "results").isObj = true ∧
    (jget defaultUserEntry "answers").isObj = true ∧
    jhasKey defaultUserEntry "active_quiz_id" = true ∧
    jget defaultUserEntry "active_quiz_id" = J.null := by
  refine ⟨rfl, rfl, rfl, rfl, rfl⟩

/-- The base of the normalization chain is a dict. -/
theorem userEntryBase_isObj (u0 : J) :
    (if u0.isObj then u0 else defaultUserEntry).isObj = true := by
  by_cases h : u0.isObj = true
  · rw [if_pos h]; exact h
  · rw [if_neg h]; rfl

/-- The normalized entry is a dict with dict `results`/`answers` and an
`active_quiz_id` key. -/
theorem userEntryFix_spec (u0 : J) :
    (userEntryFix u0).isObj = true ∧
    (jget (userEntryFix u0) "results").isObj = true ∧
    (jget (userEntryFix u0) "answers").isObj = true ∧
    jhasKey (userEntryFix u0) "active_quiz_id" = true := by
  have h1 := userEntryBase_isObj u0
  have h2 := fixField_isObj h1 "results"
  have h3 := fixField_isObj h2 "answers"
  unfold userEntryFix
  refine ⟨fixActive_isObj h3, ?_, ?_, fixActive_hasKey h3⟩
  · rw [fixActive_get_ne h3 "results" (by decide),
      fixField_get_ne h2 "answers" "results" (by decide)]
    exact fixField_get_isObj h1 "results"
  · rw [fixActive_get_ne h3 "answers" (by decide)]
    exact fixField_get_isObj h2 "answers"

/-- Re-normalizing a normalized entry is the identity. -/
theorem userEntryFix_idem (u0 : J) : userEntryFix (userEntryFix u0) = userEntryFix u0 := by
  obtain ⟨hobj, hres, hans, hact⟩ := userEntryFix_spec u0
  show fixActive (fixField (fixField
      (if (userEntryFix u0).isObj then userEntryFix u0 else defaultUserEntry)
      "results") "answers") = userEntryFix u0
  rw [if_pos hobj, fixField_of_ok hres, fixField_of_ok hans, fixActive_of_has hact]

/-- Wrongly-typed or missing fields are replaced by the empty defaults;
well-formed fields of a dict entry are preserved. -/
theorem userEntryFix_fields (u0 : J) :
    (jhasKey u0 "active_quiz_id" = false →
      jget (userEntryFix u0) "active_quiz_id" = J.null) ∧
    ((jget u0 "results").isObj = false → jget (userEntryFix u0) "results" = J.obj []) ∧
    ((jget u0 "answers").isObj = false → jget (userEntryFix u0) "answers" = J.obj []) ∧
    (u0.isObj = true →
      ((jget u0 "results").isObj = true →
        jget (userEntryFix u0) "results" = jget u0 "results") ∧
      ((jget u0 "answers").isObj = true →
        jget (userEntryFix u0) "answers" = jget u0 "answers") ∧
      (jhasKey u0 "active_quiz_id" = true →
        jget (userEntryFix u0) "active_quiz_id" = jget u0 "active_quiz_id")) := by
  by_cases h0 : u0.isObj = true
  · have h1 : (if u0.isObj then u0 else defaultUserEntry) = u0 := if_pos h0
    unfold userEntryFix
    rw [h1]
    have h2' : (fixField u0 "results").isObj = true := fixField_isObj h0 "results"
    have h3 : (fixField (fixField u0 "results") "answers").isObj = true :=
      fixField_isObj h2' "answers"
    refine ⟨?_, ?_, ?_, ?_⟩
    · intro hm
      refine fixActive_get_of_missing h3 ?_
      rw [fixField_hasKey_ne h2' "answers" "active_quiz_id" (by decide),
        fixField_hasKey_ne h0 "results" "active_quiz_id" (by decide)]
      exact hm
    · intro hb
      rw [fixActive_get_ne h3 "results" (by decide),
        fixField_get_ne h2' "answers" "results" (by decide)]
      exact fixField_get_of_bad h0 hb
    · intro hb
      rw [fixActive_get_ne h3 "answers" (by decide)]
      refine fixField_get_of_bad h2' ?_
      rw [fixField_get_ne h0 "results" "answers" (by decide)]
      exact hb
    · intro _
      refine ⟨?_, ?_, ?_⟩
      · intro hok
        rw [fixActive_get_ne h3 "results" (by decide),
          fixField_get_ne h2' "answers" "results" (by decide),
          fixField_of_ok hok]
      · intro hok
        rw [fixActive_get_ne h3 "answers" (by decide)]
        have : jget (fixField u0 "results") "answers" = jget u0 "answers" :=
          fixField_get_ne h0 "results" "answers" (by decide)
        rw [fixField_of_ok (this ▸ hok), this]
      · intro hh
        have hh2 : jhasKey (fixField (fixField u0 "results") "answers")
            "active_quiz_id" = true := by
          rw [fixField_hasKey_ne h2' "answers" "active_quiz_id" (by decide),
            fixField_hasKey_ne h0 "results" "active_quiz_id" (by decide)]
          exact hh
        rw [fixActive_of_has hh2,
          fixField_get_ne h2' "answers" "active_quiz_id" (by decide),
          fixField_get_ne h0 "results" "active_quiz_id" (by decide)]
  · have h1 : (if u0.isObj then u0 else defaultUserEntry) = defaultUserEntry := if_neg h0
    have hfix : userEntryFix u0 = defaultUserEntry := by
      unfold userEntryFix
      rw [h1, fixField_of_ok (by rfl : (jget defaultUserEntry "results").isObj = true),
        fixField_of_ok (by rfl : (jget defaultUserEntry "answers").isObj = true),
        fixActive_of_has (by rfl)]
    refine ⟨?_, ?_, ?_, fun h => absurd h (by simp [h0])⟩
    · intro _; rw [hfix]; rfl
    · intro _; rw [hfix]; rfl
    · intro _; rw [hfix]; rfl

/-- The raw user value previously stored in the state (null when the
`users` map or the entry is absent). -/
def origUserEntry (state : List (String × J)) (user_id : Int) : J :=
  (olookup (usersOfState state) (toString user_id)).getD J.null

/-- C10: after `_get_user_quiz_state` returns, the state holds an entry
under the decimal string of the user id, equal to the returned value;
its `results`/`answers` fields are dicts and it has an
`active_quiz_id` key (null when previously absent); wrongly-typed or
missing fields are replaced by empty defaults while well-formed fields
of an existing dict entry are preserved; and an immediate second call
returns the same state and entry unchanged. -/
theorem get_user_quiz_state_contract (state : List (String × J)) (user_id : Int)
    (stOut : List (String × J)) (u : J)
    (h : _get_user_quiz_state state user_id = (stOut, u)) :
    (∃ users, olookup stOut "users" = some (J.obj users) ∧
      olookup users (toString user_id) = some u) ∧
    (jget u "results").isObj = true ∧
    (jget u "answers").isObj = true ∧
    jhasKey u "active_quiz_id" = true ∧
    (jhasKey (origUserEntry state user_id) "active_quiz_id" = false →
      jget u "active_quiz_id" = J.null) ∧
    ((jget (origUserEntry state user_id) "results").isObj = false →
      jget u "results" = J.obj []) ∧
    ((jget (origUserEntry state user_id) "answers").isObj = false →
      jget u "answers" = J.obj []) ∧
    ((origUserEntry state user_id).isObj = true →
      ((jget (origUserEntry state user_id) "results").isObj = true →
        jget u "results" = jget (origUserEntry state user_id) "results") ∧
      ((jget (origUserEntry state user_id) "answers").isObj = true →
        jget u "answers" = jget (origUserEntry state user_id) "answers") ∧
      (jhasKey (origUserEntry state user_id) "active_quiz_id" = true →
        jget u "active_quiz_id" = jget (origUserEntry state user_id) "active_quiz_id")) ∧
    _get_user_quiz_state stOut user_id = (stOut, u) := by
  have hu : u = userEntryFix (origUserEntry state user_id) := (congrArg Prod.snd h).symm
  have hst : stOut = oset state "users"
      (J.obj (oset (usersOfState state) (toString user_id) u)) := by
    have h1 := (congrArg Prod.fst h).symm
    rw [hu]
    exact h1
  have hlook1 : olookup stOut "users" =
      some (J.obj (oset (usersOfState state) (toString user_id) u)) := by
    rw [hst]; exact olookup_oset_self state "users" _
  have hlook2 : olookup (oset (usersOfState state) (toString user_id) u)
      (toString user_id) = some u := olookup_oset_self _ _ _
  obtain ⟨hobj, hres, hans, hact⟩ := userEntryFix_spec (origUserEntry state user_id)
  obtain ⟨hd1, hd2, hd3, hp⟩ := userEntryFix_fields (origUserEntry state user_id)
  rw [← hu] at hobj hres hans hact hd1 hd2 hd3 hp
  have husers2 : usersOfState stOut = oset (usersOfState state) (toString user_id) u := by
    unfold usersOfState
    rw [hlook1]
    rfl
  have hfixu : userEntryFix u = u := by
    rw [hu]; exact userEntryFix_idem _
  refine ⟨⟨_, hlook1, hlook2⟩, hres, hans, hact, hd1, hd2, hd3, hp, ?_⟩
  show _get_user_quiz_state stOut user_id = (stOut, u)
  unfold _get_user_quiz_state
  simp only [husers2, hlook2, Option.getD_some, hfixu, oset_self hlook2, oset_self hlook1]

/-- Witness for C10 at the empty state and user id 7: the entry is
created with the defaults and the second call is a no-op. -/
theorem get_user_quiz_state_contract_witness :
    jhasKey defaultUserEntry "active_quiz_id" = true ∧
    _get_user_quiz_state [("users", J.obj [("7", defaultUserEntry)])] 7 =
      ([("users", J.obj [("7", defaultUserEntry)])], defaultUserEntry) :=
  ⟨(get_user_quiz_state_contract [] 7 [("users", J.obj [("7", defaultUserEntry)])]
      defaultUserEntry rfl).2.2.2.1,
   (get_user_quiz_state_contract [] 7 [("users", J.obj [("7", defaultUserEntry)])]
      defaultUserEntry rfl).2.2.2.2.2.2.2.2⟩

/-! ## Quiz handlers (src/handlers/quiz.py) -/

/-- `str(q.get("id") or "").strip()`, the id normalization used
throughout the handlers. -/
def quizIdStr (q : J) : String := pyStrip (pyStr (pyOr (jget q "id") (J.s "")))

/-- The `isinstance(r, dict) and bool(r.get("correct"))` test the
handlers apply to `results.get(qid)`. -/
def resultCorrect (results : J) (qid : String) : Bool :=
  (jget results qid).isObj && J.truthy (jget (jget results qid) "correct")

/-- `str(active_quiz_id).strip()` as computed by the handlers. -/
def activeIdOf (u : J) : String := pyStrip (pyStr (jget u "active_quiz_id"))

/-- `int((prev or {}).get("attempts") or 0) if isinstance(prev, dict)
else 0` with `prev = results.get(qkey)` (lines 170-171). -/
def prevAttemptsOf (u : J) (qkey : String) : Option Int :=
  let prev := jget (jget u "results") qkey
  if prev.isObj then pyInt (pyOr (jget (pyOr prev (J.obj [])) "attempts") (J.i 0))
  else some 0

/-- Write the (aliased, mutated) user entry back into the state, as
Python's in-place mutation does implicitly. -/
def stateWithUser (state : List (String × J)) (key : String) (u : J) :
    List (String × J) :=
  oset state "users" (J.obj (oset (usersOfState state) key u))

/-- Result of one handler invocation: the in-memory state document when
the handler returns, whether `_save_quiz_state` was invoked, and the
texts sent (in order). -/
structure HandlerOut where
  state : List (String × J)
  saved : Bool
  msgs : List String

/-- `next_unsolved` of the spec as implemented by `handle_quiz` (lines
269-270 and 304-311): filter hidden out, then first quiz whose stored
result is not correct. -/
def nextUnsolved (quizzes : List J) (results : J) : Option J :=
  (quizzes.filter (fun q => !_is_hidden_quiz q)).find?
    (fun q => !resultCorrect results (quizIdStr q))

/-- The fall-through of `handle_quiz` (lines 297-335) reached with no
resendable active quiz: fix `results`, pick the first unsolved quiz of
the (already filtered) list, set it active and save, or report all
complete without saving. -/
def handleQuizPick (user_id : Int) (quizzes : List J) (state : List (String × J))
    (u : J) : HandlerOut :=
  let key := toString user_id
  let u := if (jget u "results").isObj then u else jset u "results" (J.obj [])
  let results := jget u "results"
  match quizzes.find? (fun q => !resultCorrect results (quizIdStr q)) with
  | none => ⟨stateWithUser state key u, false, ["Все квизы уже пройдены. Отличная работа!"]⟩
  | some nq =>
      let qid := quizIdStr nq
      let u := jset u "active_quiz_id" (J.s qid)
      let question := pyStrip (pyStr (pyOr (jget nq "question") (J.s "")))
      ⟨stateWithUser state key u, true, ["Квиз " ++ qid ++ ".\n\n" ++ question]⟩

/-- `handle_quiz` (src/handlers/quiz.py lines 259-335).  The quizzes
argument is the list `_load_quizzes` returned; the state argument the
document `_load_quiz_state` returned. -/
def handle_quiz (chat_type : String) (user_id : Int) (quizzes : List J)
    (state : List (String × J)) : HandlerOut :=
  if chat_type != "private" then
    ⟨state, false, ["Команда доступна только в личных сообщениях с ботом."]⟩
  else
    let quizzes := quizzes.filter (fun q => !_is_hidden_quiz q)
    if quizzes.isEmpty then ⟨state, false, ["Квизов пока нет."]⟩
    else
      let su := _get_user_quiz_state state user_id
      let state := su.1
      let u := su.2
      let key := toString user_id
      let aq := jget u "active_quiz_id"
      let aqs := if aq.isNull then "" else pyStrip (pyStr aq)
      if aqs != "" then
        match quizzes.find? (fun q => quizIdStr q == aqs) with
        | some quiz =>
            if quiz.isObj then
              let question := pyStrip (pyStr (pyOr (jget quiz "question") (J.s "")))
              ⟨state, false, ["Квиз " ++ aqs ++ " уже в процессе.\n\n" ++ question]⟩
            else
              let u2 := jset u "active_quiz_id" J.null
              handleQuizPick user_id quizzes (stateWithUser state key u2) u2
        | none =>
            let u2 := jset u "active_quiz_id" J.null
            handleQuizPick user_id quizzes (stateWithUser state key u2) u2
      else handleQuizPick user_id quizzes state u

/-- `handle_skip` (src/handlers/quiz.py lines 338-403). -/
def handle_skip (chat_type : String) (user_id : Int) (quizzes : List J)
    (state : List (String × J)) : HandlerOut :=
  if chat_type != "private" then
    ⟨state, false, ["Команда доступна только в личных сообщениях с ботом."]⟩
  else
    let su := _get_user_quiz_state state user_id
    let state := su.1
    let u := su.2
    let key := toString user_id
    let aq := jget u "active_quiz_id"
    if aq.isNull || (pyStrip (pyStr aq) == "") then ⟨state, false, []⟩
    else
      let active := activeIdOf u
      let quizzes := quizzes.filter (fun q => !_is_hidden_quiz q)
      if quizzes.isEmpty then ⟨state, false, []⟩
      else
        let u := if (jget u "results").isObj then u else jset u "results" (J.obj [])
        let results := jget u "results"
        let pass1 := quizzes.find? (fun q =>
          !(quizIdStr q == "" || quizIdStr q == active)
            && !resultCorrect results (quizIdStr q))
        let sel := match pass1 with
          | some q => some q
          | none => quizzes.find? (fun q =>
              !(quizIdStr q == "") && !resultCorrect results (quizIdStr q))
        match sel with
        | none => ⟨stateWithUser state key u, false, []⟩
        | some nq =>
            let qid := quizIdStr nq
            let u := jset u "active_quiz_id" (J.s qid)
            let question := pyStrip (pyStr (pyOr (jget nq "question") (J.s "")))
            ⟨stateWithUser state key u, true, ["Квиз " ++ qid ++ ".\n\n" ++ question]⟩

/-- `handle_quiz_ask` (src/handlers/quiz.py lines 406-459). -/
def handle_quiz_ask (chat_type : String) (is_admin : Bool) (user_id : Int)
    (args : String) (quizzes : List J) (state : List (String × J)) : HandlerOut :=
  if chat_type != "private" then
    ⟨state, false, ["Команда доступна только в личных сообщениях с ботом."]⟩
  else if !is_admin then
    ⟨state, false, ["Недостаточно прав: команда доступна только администраторам."]⟩
  else
    let quiz_id := pyStrip args
    if quiz_id == "" then ⟨state, false, ["Usage: /quiz_ask <quiz_id>"]⟩
    else
      let found := quizzes.find? (fun q => quizIdStr q == quiz_id)
      match found with
      | none => ⟨state, false, ["Квиз с id=" ++ quiz_id ++ " не найден."]⟩
      | some quiz =>
          if !quiz.isObj then ⟨state, false, ["Квиз с id=" ++ quiz_id ++ " не найден."]⟩
          else
            let su := _get_user_quiz_state state user_id
            let state := su.1
            let u := su.2
            let key := toString user_id
            let u := jset u "active_quiz_id" (J.s quiz_id)
            let question := pyStrip (pyStr (pyOr (jget quiz "question") (J.s "")))
            ⟨stateWithUser state key u, true, ["Квиз " ++ quiz_id ++ ".\n\n" ++ question]⟩

/-- `_append_user_answer` (src/data/quiz.py lines 187-208): append one
timestamped record to the per-quiz answer history inside the entry. -/
def _append_user_answer (u : J) (quiz_id answer : String) (is_correct : Bool)
    (ts : String) : J :=
  let u := if (jget u "answers").isObj then u else jset u "answers" (J.obj [])
  let answers := jget u "answers"
  let arrL := match jget answers quiz_id with | .arr xs => xs | _ => []
  jset u "answers" (jset answers quiz_id (J.arr (arrL ++
    [J.obj [("answer", J.s answer), ("ts", J.s ts), ("correct", J.b is_correct)]])))

/-- `handle_quiz_answer` (src/handlers/quiz.py lines 132-256).  The
judge call is the oracle argument, `ts` the timestamp written into the
history; `none` models the uncaught raise of the `int(...)` coercion of
a pathological stored `attempts`.  The token-usage logging is a write
to the append-only log only and is not part of the state. -/
def handle_quiz_answer (is_admin : Bool) (user_id : Int) (text0 : String)
    (quizzes : List J) (state : List (String × J)) (judge : JudgeCall) (ts : String) :
    Option HandlerOut :=
  let text := pyStrip text0
  let su := _get_user_quiz_state state user_id
  let state := su.1
  let u := su.2
  let key := toString user_id
  let aq := jget u "active_quiz_id"
  if aq.isNull || (activeIdOf su.2 == "") then some ⟨state, false, []⟩
  else
    let active := activeIdOf su.2
    match quizzes.find? (fun q => quizIdStr q == active) with
    | none =>
        let u := jset u "active_quiz_id" J.null
        some ⟨stateWithUser state key u, true, []⟩
    | some quiz =>
      if _is_hidden_quiz quiz && !is_admin then
        let u := jset u "active_quiz_id" J.null
        some ⟨stateWithUser state key u, true, []⟩
      else
        let correct_answer := pyStrip (pyStr (pyOr (jget quiz "answer") (J.s "")))
        let user_answer := pyStrip text
        let qkey := active
        let u := if (jget u "results").isObj then u else jset u "results" (J.obj [])
        match prevAttemptsOf u qkey with
        | none => none
        | some prev_attempts =>
          let attempts_now := prev_attempts + 1
          let is_correct := (_judge_quiz_answer judge
            (pyStrip (pyStr (pyOr (jget quiz "question") (J.s ""))))
            correct_answer user_answer).1
          let u := _append_user_answer u qkey user_answer is_correct ts
          let results := jget u "results"
          if !is_correct then
            let u := jset u "results" (jset results qkey
              (J.obj [("correct", J.b false), ("attempts", J.i attempts_now)]))
            some ⟨stateWithUser state key u, true,
              ["Неправильно. Попыток: " ++ toString attempts_now ++ ". Попробуйте ещё раз."]⟩
          else
            let u := jset u "results" (jset results qkey
              (J.obj [("correct", J.b true), ("attempts", J.i attempts_now)]))
            let results := jget u "results"
            match quizzes.find? (fun q =>
                !_is_hidden_quiz q && !resultCorrect results (quizIdStr q)) with
            | none =>
                let u := jset u "active_quiz_id" J.null
                some ⟨stateWithUser state key u, true,
                  ["Правильно! Поздравляю.", "Все квизы уже пройдены. Отличная работа!"]⟩
            | some nq =>
                let next_qid := quizIdStr nq
                let u := jset u "active_quiz_id" (J.s next_qid)
                let question := pyStrip (pyStr (pyOr (jget nq "question") (J.s "")))
                some ⟨stateWithUser state key u, true,
                  ["Правильно! Поздравляю.", "Квиз " ++ next_qid ++ ".\n\n" ++ question]⟩

/-- In-place edit of the first quiz whose `str(q.get("id") or "")`
equals the target id (the edit-wizard commit, lines 64-80). -/
def editFirstQuiz (quiz_id question answer : String) : List J → List J
  | [] => []
  | q :: qs =>
      if pyStr (pyOr (jget q "id") (J.s "")) == quiz_id then
        jset (jset q "question" (J.s question)) "answer" (J.s answer) :: qs
      else q :: editFirstQuiz quiz_id question answer qs

/-- Result of one wizard message: the wizard-session entry afterwards
(`J.null` when absent / cleared), the quiz list passed to
`_save_quizzes` when a save happened, and the texts sent. -/
structure WizardOut where
  session : J
  quizzesSaved : Option (List J)
  msgs : List String

/-- `handle_quiz_wizard` (src/handlers/quiz.py lines 22-129) for one
admin: `wizardEntry` is the stored session value (`J.null` when
absent).  The save itself is modelled as succeeding; the disk-failure
branch keeps the session and sends an error instead. -/
def wizStage (wizardEntry : J) : String :=
  pyStr (pyOr (jget (pyOr wizardEntry (J.obj [])) "stage") (J.s ""))

def wizQuizId (wizardEntry : J) : String :=
  pyStrip (pyStr (pyOr (jget (pyOr wizardEntry (J.obj [])) "quiz_id") (J.s "")))

def wizMode (wizardEntry : J) : String :=
  pyStr (pyOr (jget (pyOr wizardEntry (J.obj [])) "mode") (J.s "create"))

def handle_quiz_wizard (wizardEntry : J) (text0 : String) (quizzes : List J) :
    WizardOut :=
  let st := pyOr wizardEntry (J.obj [])
  let stage := wizStage wizardEntry
  let quiz_id := wizQuizId wizardEntry
  let mode := wizMode wizardEntry
  let text := pyStrip text0
  if stage == "await_question" then
    let question := pyStrip text
    if question == "" then
      ⟨wizardEntry, none, ["Пожалуйста, отправьте непустой вопрос для квиза."]⟩
    else
      let st := jset (jset st "question" (J.s question)) "stage" (J.s "await_answer")
      ⟨st, none, ["Квиз " ++ quiz_id ++ ": теперь отправьте правильный ответ."]⟩
  else if stage == "await_answer" then
    let answer := pyStrip text
    if answer == "" then
      ⟨wizardEntry, none, ["Пожалуйста, отправьте непустой правильный ответ для квиза."]⟩
    else
      let question := pyStrip (pyStr (pyOr (jget st "question") (J.s "")))
      if mode == "edit" then
        match quizzes.find? (fun q => pyStr (pyOr (jget q "id") (J.s "")) == quiz_id) with
        | none =>
            ⟨J.null, none, ["Квиз с id=" ++ quiz_id ++ " не найден. Редактирование отменено."]⟩
        | some _ =>
            ⟨J.null, some (editFirstQuiz quiz_id question answer quizzes),
             ["Готово. Квиз " ++ quiz_id ++ " обновлён."]⟩
      else
        if quizzes.any (fun q => pyStr (pyOr (jget q "id") (J.s "")) == quiz_id) then
          ⟨J.null, none, ["Квиз с id=" ++ quiz_id ++ " уже существует. Создание отменено."]⟩
        else
          ⟨J.null, some (quizzes ++
             [J.obj [("id", J.s quiz_id), ("question", J.s question),
                     ("answer", J.s answer), ("processed", J.b false)]]),
           ["Готово. Квиз " ++ quiz_id ++ " сохранён."]⟩
  else ⟨wizardEntry, none, []⟩

/-- `find?` returns the first element satisfying the predicate. -/
theorem nextUnsolved_first (quizzes : List J) (results : J) {q : J}
    (h : nextUnsolved quizzes results = some q) :
    _is_hidden_quiz q = false ∧ resultCorrect results (quizIdStr q) = false ∧
    ∃ pre post, quizzes = pre ++ q :: post ∧
      ∀ q2 ∈ pre, _is_hidden_quiz q2 = false → resultCorrect results (quizIdStr q2) = true := by
  induction quizzes with
  | nil => simp [nextUnsolved] at h
  | cons a rest ih =>
    rw [nextUnsolved, List.filter_cons] at h
    by_cases hh : _is_hidden_quiz a = false
    · rw [if_pos (by simp [hh])] at h
      by_cases hc : resultCorrect results (quizIdStr a) = true
      · rw [List.find?_cons_of_neg _ (by simp [hc])] at h
        obtain ⟨h1, h2, pre, post, heq, hpre⟩ := ih (by rw [nextUnsolved]; exact h)
        refine ⟨h1, h2, a :: pre, post, by rw [heq]; rfl, ?_⟩
        intro q2 hq2 hq2h
        rcases List.mem_cons.mp hq2 with hq2a | hmem
        · subst hq2a; exact hc
        · exact hpre q2 hmem hq2h
      · rw [List.find?_cons_of_pos _ (by simp [Bool.not_eq_true] at hc; simp [hc])] at h
        have hqa : q = a := (Option.some.inj h).symm
        subst hqa
        refine ⟨hh, by simp [Bool.not_eq_true] at hc; exact hc, [], rest, rfl, ?_⟩
        intro q2 hq2; cases hq2
    · have hh2 : _is_hidden_quiz a = true := by
        simp [Bool.not_eq_false] at hh; exact hh
      rw [if_neg (by simp [hh2])] at h
      obtain ⟨h1, h2, pre, post, heq, hpre⟩ := ih (by rw [nextUnsolved]; exact h)
      refine ⟨h1, h2, a :: pre, post, by rw [heq]; rfl, ?_⟩
      intro q2 hq2 hq2h
      rcases List.mem_cons.mp hq2 with hq2a | hmem
      · subst hq2a; rw [hq2h] at hh2; exact absurd hh2 (by simp)
      · exact hpre q2 hmem hq2h

/-- `nextUnsolved` is none exactly when every non-hidden quiz is solved. -/
theorem nextUnsolved_none_iff (quizzes : List J) (results : J) :
    nextUnsolved quizzes results = none ↔
      ∀ q ∈ quizzes, _is_hidden_quiz q = false →
        resultCorrect results (quizIdStr q) = true := by
  rw [nextUnsolved, List.find?_eq_none]
  constructor
  · intro h q hq hhid
    have hmem : q ∈ quizzes.filter (fun q => !_is_hidden_quiz q) :=
      List.mem_filter.mpr ⟨hq, by simp [hhid]⟩
    have := h q hmem
    simpa using this
  · intro h q hq
    obtain ⟨hmem, hf⟩ := List.mem_filter.mp hq
    have hfh : _is_hidden_quiz q = false := by simpa using hf
    simp [h q hmem hfh]

/-- C3: the next-unsolved selection returns the first quiz in list
order among the non-hidden quizzes whose stored result is not correct;
it never returns a hidden quiz; and it returns none exactly when the
non-hidden quizzes are all solved or there are none. -/
theorem next_unsolved_selection (quizzes : List J) (results : J) :
    (∀ q, nextUnsolved quizzes results = some q →
      _is_hidden_quiz q = false ∧ resultCorrect results (quizIdStr q) = false ∧
      ∃ pre post, quizzes = pre ++ q :: post ∧
        ∀ q2 ∈ pre, _is_hidden_quiz q2 = false →
          resultCorrect results (quizIdStr q2) = true) ∧
    (nextUnsolved quizzes results = none ↔
      ∀ q ∈ quizzes, _is_hidden_quiz q = false →
        resultCorrect results (quizIdStr q) = true) :=
  ⟨fun _ h => nextUnsolved_first quizzes results h, nextUnsolved_none_iff quizzes results⟩

/-- Concrete quiz list for the C3 witness: a hidden unsolved quiz, a
solved visible quiz, then the visible unsolved quiz that must win. -/
def c3Quizzes : List J :=
  [J.obj [("id", J.s "q1"), ("question", J.s "h?"), ("hidden", J.b true)],
   J.obj [("id", J.s "q2"), ("question", J.s "s?"), ("hidden", J.b false)],
   J.obj [("id", J.s "q3"), ("question", J.s "capital?"), ("hidden", J.b false)]]

def c3Results : J := J.obj [("q2", J.obj [("correct", J.b true), ("attempts", J.i 1)])]

def c3Target : J := J.obj [("id", J.s "q3"), ("question", J.s "capital?"), ("hidden", J.b false)]

/-- Witness for C3: the hidden quiz is skipped, the solved one too, the
third is selected and satisfies the first-unsolved characterization. -/
theorem next_unsolved_selection_witness :
    nextUnsolved c3Quizzes c3Results = some c3Target ∧
    (_is_hidden_quiz c3Target = false ∧
     resultCorrect c3Results (quizIdStr c3Target) = false ∧
     ∃ pre post, c3Quizzes = pre ++ c3Target :: post ∧
       ∀ q2 ∈ pre, _is_hidden_quiz q2 = false →
         resultCorrect c3Results (quizIdStr q2) = true) :=
  ⟨rfl, (next_unsolved_selection c3Quizzes c3Results).1 c3Target rfl⟩

/-- C7: a create-mode wizard commit whose target id meanwhile exists
aborts — session cleared, no quiz-list write, error surfaced; an
edit-mode commit whose target id no longer exists aborts the same
way. -/
theorem wizard_race_abort (entry : J) (text : String) (quizzes : List J)
    (hstage : wizStage entry = "await_answer")
    (hanswer : pyStrip (pyStrip text) ≠ "") :
    ((wizMode entry ≠ "edit" ∧
        quizzes.any (fun q => pyStr (pyOr (jget q "id") (J.s "")) == wizQuizId entry)
          = true) →
      handle_quiz_wizard entry text quizzes =
        ⟨J.null, none,
         ["Квиз с id=" ++ wizQuizId entry ++ " уже существует. Создание отменено."]⟩) ∧
    ((wizMode entry = "edit" ∧
        quizzes.find? (fun q => pyStr (pyOr (jget q "id") (J.s "")) == wizQuizId entry)
          = none) →
      handle_quiz_wizard entry text quizzes =
        ⟨J.null, none,
         ["Квиз с id=" ++ wizQuizId entry ++ " не найден. Редактирование отменено."]⟩) := by
  have hansb : (pyStrip (pyStrip text) == "") = false :=
    beq_eq_false_iff_ne.mpr hanswer
  constructor
  · rintro ⟨hmode, hany⟩
    have hmodeb : (wizMode entry == "edit") = false := beq_eq_false_iff_ne.mpr hmode
    unfold handle_quiz_wizard
    simp only [hstage, hmodeb, hansb, hany]
    rfl
  · rintro ⟨hmode, hfind⟩
    unfold handle_quiz_wizard
    simp only [hstage, hmode, hansb, hfind]
    rfl

def c7CreateEntry : J :=
  J.obj [("stage", J.s "await_answer"), ("quiz_id", J.s "q1"), ("mode", J.s "create"),
         ("question", J.s "2+2?")]

def c7EditEntry : J :=
  J.obj [("stage", J.s "await_answer"), ("quiz_id", J.s "gone"), ("mode", J.s "edit"),
         ("question", J.s "2+2?")]

def c7Quizzes : List J :=
  [J.obj [("id", J.s "q1"), ("question", J.s "old"), ("answer", J.s "4"),
          ("processed", J.b false), ("hidden", J.b false)]]

/-- Witness for C7: committing a create wizard for the now-taken id
"q1" aborts with the session cleared and nothing saved; an edit commit
for the vanished id "gone" aborts likewise. -/
theorem wizard_race_abort_witness :
    handle_quiz_wizard c7CreateEntry "4" c7Quizzes =
      ⟨J.null, none, ["Квиз с id=q1 уже существует. Создание отменено."]⟩ ∧
    handle_quiz_wizard c7EditEntry "4" c7Quizzes =
      ⟨J.null, none, ["Квиз с id=gone не найден. Редактирование отменено."]⟩ := by
  constructor
  · exact (wizard_race_abort c7CreateEntry "4" c7Quizzes rfl (by decide)).1
      ⟨by decide, rfl⟩
  · exact (wizard_race_abort c7EditEntry "4" c7Quizzes rfl (by decide)).2
      ⟨rfl, rfl⟩

/-- The state returned by the get-or-create holds the returned entry
under the user's key. -/
theorem get_user_state_lookup (state : List (String × J)) (user_id : Int) :
    olookup ((_get_user_quiz_state state user_id).1) "users" =
      some (J.obj (oset (usersOfState state) (toString user_id)
        ((_get_user_quiz_state state user_id).2))) ∧
    olookup (oset (usersOfState state) (toString user_id)
        ((_get_user_quiz_state state user_id).2)) (toString user_id) =
      some ((_get_user_quiz_state state user_id).2) :=
  ⟨olookup_oset_self state "users" _, olookup_oset_self _ _ _⟩

theorem append_isObj {u : J} (h : u.isObj = true) (qid ans : String) (c : Bool)
    (ts : String) : (_append_user_answer u qid ans c ts).isObj = true := by
  unfold _append_user_answer
  simp only []
  by_cases hA : (jget u "answers").isObj = true
  · rw [if_pos hA]; exact jset_isObj h _ _
  · rw [if_neg hA]; exact jset_isObj (jset_isObj h _ _) _ _

theorem append_results {u : J} (h : u.isObj = true) (qid ans : String) (c : Bool)
    (ts : String) :
    jget (_append_user_answer u qid ans c ts) "results" = jget u "results" := by
  unfold _append_user_answer
  simp only []
  by_cases hA : (jget u "answers").isObj = true
  · rw [if_pos hA]
    exact jget_jset_ne_of h "answers" "results" _ (by decide)
  · rw [if_neg hA]
    rw [jget_jset_ne_of (jset_isObj h _ _) "answers" "results" _ (by decide),
      jget_jset_ne_of h "answers" "results" _ (by decide)]

/-- The graded path of `handle_quiz_answer`: with an active, resolvable,
servable quiz and a readable stored attempt count `n`, the handler
saves, and the stored entry's result for the active id becomes
`{"correct": verdict, "attempts": n+1}` while every other result key is
left unchanged. -/
theorem answer_graded_spec (is_admin : Bool) (user_id : Int) (text : String)
    (quizzes : List J) (state : List (String × J)) (judge : JudgeCall) (ts : String)
    (quiz : J) (n : Int)
    (haq : (jget ((_get_user_quiz_state state user_id).2) "active_quiz_id").isNull = false)
    (hbeq : (activeIdOf ((_get_user_quiz_state state user_id).2) == "") = false)
    (hfound : quizzes.find? (fun q => quizIdStr q ==
      activeIdOf ((_get_user_quiz_state state user_id).2)) = some quiz)
    (hvis : (_is_hidden_quiz quiz && !is_admin) = false)
    (hprev : prevAttemptsOf ((_get_user_quiz_state state user_id).2)
      (activeIdOf ((_get_user_quiz_state state user_id).2)) = some n) :
    ∃ out uF,
      handle_quiz_answer is_admin user_id text quizzes state judge ts = some out ∧
      out.saved = true ∧
      olookup out.state "users" = some (J.obj (oset
        (usersOfState ((_get_user_quiz_state state user_id).1)) (toString user_id) uF)) ∧
      olookup (oset (usersOfState ((_get_user_quiz_state state user_id).1))
        (toString user_id) uF) (toString user_id) = some uF ∧
      jget (jget uF "results") (activeIdOf ((_get_user_quiz_state state user_id).2)) =
        J.obj [("correct", J.b ((_judge_quiz_answer judge
            (pyStrip (pyStr (pyOr (jget quiz "question") (J.s ""))))
            (pyStrip (pyStr (pyOr (jget quiz "answer") (J.s ""))))
            (pyStrip (pyStrip text))).1)),
          ("attempts", J.i (n + 1))] ∧
      (∀ qid, ¬ qid = activeIdOf ((_get_user_quiz_state state user_id).2) →
        jget (jget uF "results") qid =
          jget (jget ((_get_user_quiz_state state user_id).2) "results") qid) := by
  have hu0obj : ((_get_user_quiz_state state user_id).2).isObj = true :=
    (userEntryFix_spec (origUserEntry state user_id)).1
  have hresObj : (jget ((_get_user_quiz_state state user_id).2) "results").isObj = true :=
    (userEntryFix_spec (origUserEntry state user_id)).2.1
  unfold handle_quiz_answer
  simp only [haq, hbeq, Bool.or_self, Bool.false_eq_true, if_false, hfound, hvis,
    if_pos hresObj, hprev]
  set u0 := (_get_user_quiz_state state user_id).2 with hu0
  set active := activeIdOf u0 with hactive
  set verdict := (_judge_quiz_answer judge
      (pyStrip (pyStr (pyOr (jget quiz "question") (J.s ""))))
      (pyStrip (pyStr (pyOr (jget quiz "answer") (J.s ""))))
      (pyStrip (pyStrip text))).1 with hverdict
  set u2 := _append_user_answer u0 active (pyStrip (pyStrip text)) verdict ts with hu2
  have hu2obj : u2.isObj = true := append_isObj hu0obj _ _ _ _
  have hu2res : jget u2 "results" = jget u0 "results" := append_results hu0obj _ _ _ _
  by_cases hic : verdict = true
  · simp only [hic, Bool.not_true, Bool.false_eq_true, if_false]
    rcases hnext : quizzes.find? (fun q =>
        !_is_hidden_quiz q && !resultCorrect
          (jget (jset u2 "results" (jset (jget u2 "results") active
            (J.obj [("correct", J.b true), ("attempts", J.i (n + 1))]))) "results")
          (quizIdStr q)) with _ | nq
    · simp only [hnext]
      refine ⟨_, _, rfl, rfl, olookup_oset_self _ _ _, olookup_oset_self _ _ _, ?_, ?_⟩
      · rw [jget_jset_ne_of (jset_isObj hu2obj _ _) "active_quiz_id" "results" _ (by decide),
          jget_jset_self_of hu2obj, hu2res, jget_jset_self_of hresObj]
      · intro qid hqid
        rw [jget_jset_ne_of (jset_isObj hu2obj _ _) "active_quiz_id" "results" _ (by decide),
          jget_jset_self_of hu2obj, hu2res, jget_jset_ne_of ?left active qid _ hqid]
        case left =>
          rw [← hu2res] at hresObj ⊢
          cases hres2 : jget u2 "results" with
          | obj kvs => rfl
          | null => rw [hres2] at hresObj; exact absurd hresObj (by simp [J.isObj])
          | b x => rw [hres2] at hresObj; exact absurd hresObj (by simp [J.isObj])
          | i m => rw [hres2] at hresObj; exact absurd hresObj (by simp [J.isObj])
          | s v => rw [hres2] at hresObj; exact absurd hresObj (by simp [J.isObj])
          | arr xs => rw [hres2] at hresObj; exact absurd hresObj (by simp [J.isObj])
    · simp only [hnext]
      refine ⟨_, _, rfl, rfl, olookup_oset_self _ _ _, olookup_oset_self _ _ _, ?_, ?_⟩
      · rw [jget_jset_ne_of (jset_isObj hu2obj _ _) "active_quiz_id" "results" _ (by decide),
          jget_jset_self_of hu2obj, hu2res, jget_jset_self_of hresObj]
      · intro qid hqid
        rw [jget_jset_ne_of (jset_isObj hu2obj _ _) "active_quiz_id" "results" _ (by decide),
          jget_jset_self_of hu2obj, hu2res]
        have : (jget u0 "results").isObj = true := hresObj
        rw [jget_jset_ne_of this active qid _ hqid]
  · have hicf : verdict = false := by
      cases hv : verdict
      · rfl
      · exact absurd hv hic
    simp only [hicf, Bool.not_false, if_true]
    refine ⟨_, _, rfl, rfl, olookup_oset_self _ _ _, olookup_oset_self _ _ _, ?_, ?_⟩
    · rw [jget_jset_self_of hu2obj, hu2res, jget_jset_self_of hresObj]
    · intro qid hqid
      rw [jget_jset_self_of hu2obj, hu2res, jget_jset_ne_of hresObj active qid _ hqid]

/-- C5: a graded submission writes `attempts` equal to the previously
stored attempts plus exactly one (so attempts never decreases), for a
correct or incorrect verdict alike; after N incorrect submissions a
correct one therefore stores N+1. -/
theorem monotonic_attempts (is_admin : Bool) (user_id : Int) (text : String)
    (quizzes : List J) (state : List (String × J)) (judge : JudgeCall) (ts : String)
    (quiz : J) (n : Int)
    (haq : (jget ((_get_user_quiz_state state user_id).2) "active_quiz_id").isNull = false)
    (hbeq : (activeIdOf ((_get_user_quiz_state state user_id).2) == "") = false)
    (hfound : quizzes.find? (fun q => quizIdStr q ==
      activeIdOf ((_get_user_quiz_state state user_id).2)) = some quiz)
    (hvis : (_is_hidden_quiz quiz && !is_admin) = false)
    (hprev : prevAttemptsOf ((_get_user_quiz_state state user_id).2)
      (activeIdOf ((_get_user_quiz_state state user_id).2)) = some n) :
    ∃ out uF,
      handle_quiz_answer is_admin user_id text quizzes state judge ts = some out ∧
      out.saved = true ∧
      olookup out.state "users" = some (J.obj (oset
        (usersOfState ((_get_user_quiz_state state user_id).1)) (toString user_id) uF)) ∧
      olookup (oset (usersOfState ((_get_user_quiz_state state user_id).1))
        (toString user_id) uF) (toString user_id) = some uF ∧
      jget (jget uF "results") (activeIdOf ((_get_user_quiz_state state user_id).2)) =
        J.obj [("correct", J.b ((_judge_quiz_answer judge
            (pyStrip (pyStr (pyOr (jget quiz "question") (J.s ""))))
            (pyStrip (pyStr (pyOr (jget quiz "answer") (J.s ""))))
            (pyStrip (pyStrip text))).1)),
          ("attempts", J.i (n + 1))] := by
  obtain ⟨out, uF, h1, h2, h3, h4, h5, _⟩ :=
    answer_graded_spec is_admin user_id text quizzes state judge ts quiz n
      haq hbeq hfound hvis hprev
  exact ⟨out, uF, h1, h2, h3, h4, h5⟩

def c5Quiz : J :=
  J.obj [("id", J.s "q1"), ("question", J.s "2+2?"), ("answer", J.s "4"),
         ("processed", J.b false), ("hidden", J.b false)]

def c5Quizzes : List J := [c5Quiz]

def c5State : List (String × J) :=
  [("users", J.obj [("1", J.obj
      [("active_quiz_id", J.s "q1"),
       ("results", J.obj [("q1", J.obj [("correct", J.b false), ("attempts", J.i 2)])]),
       ("answers", J.obj [])])])]

/-- Witness for C5: after two stored incorrect attempts, a correct
submission (judge down, exact match) stores attempts 3. -/
theorem monotonic_attempts_witness :
    ∃ out uF,
      handle_quiz_answer false 1 "4" c5Quizzes c5State JudgeCall.fail "t1" = some out ∧
      out.saved = true ∧
      olookup out.state "users" = some (J.obj (oset
        (usersOfState ((_get_user_quiz_state c5State 1).1)) (toString (1 : Int)) uF)) ∧
      olookup (oset (usersOfState ((_get_user_quiz_state c5State 1).1))
        (toString (1 : Int)) uF) (toString (1 : Int)) = some uF ∧
      jget (jget uF "results") (activeIdOf ((_get_user_quiz_state c5State 1).2)) =
        J.obj [("correct", J.b true), ("attempts", J.i 3)] :=
  monotonic_attempts false 1 "4" c5Quizzes c5State JudgeCall.fail "t1" c5Quiz 2
    rfl rfl rfl rfl rfl

/-- The user entry stored in a state document under a key. -/
def userEntryIn (st : List (String × J)) (key : String) : J :=
  jget (jget (J.obj st) "users") key

/-- C1 (amended): provided the active quiz's stored result is not
already correct — which holds whenever the quiz became active through
`/quiz`, `/skip` or the answer progression, but not through the admin
`/quiz_ask` override — a submission never turns a stored
`correct = true` into `false`: every already-correct result key is
still correct afterwards. -/
theorem no_backsliding_amended (is_admin : Bool) (user_id : Int) (text : String)
    (quizzes : List J) (state : List (String × J)) (judge : JudgeCall) (ts : String)
    (out : HandlerOut)
    (hout : handle_quiz_answer is_admin user_id text quizzes state judge ts = some out)
    (hnc : resultCorrect (jget ((_get_user_quiz_state state user_id).2) "results")
      (activeIdOf ((_get_user_quiz_state state user_id).2)) = false) :
    ∃ users uF, olookup out.state "users" = some (J.obj users) ∧
      olookup users (toString user_id) = some uF ∧
      ∀ qid, resultCorrect (jget ((_get_user_quiz_state state user_id).2) "results")
          qid = true →
        resultCorrect (jget uF "results") qid = true := by
  have hu0obj : ((_get_user_quiz_state state user_id).2).isObj = true :=
    (userEntryFix_spec (origUserEntry state user_id)).1
  have hresObj : (jget ((_get_user_quiz_state state user_id).2) "results").isObj = true :=
    (userEntryFix_spec (origUserEntry state user_id)).2.1
  by_cases hc1 : ((jget ((_get_user_quiz_state state user_id).2) "active_quiz_id").isNull
      || (activeIdOf ((_get_user_quiz_state state user_id).2) == "")) = true
  · unfold handle_quiz_answer at hout
    simp only [hc1, if_true] at hout
    have ho : out = ⟨(_get_user_quiz_state state user_id).1, false, []⟩ :=
      (Option.some.inj hout).symm
    subst ho
    exact ⟨_, _, (get_user_state_lookup state user_id).1,
      (get_user_state_lookup state user_id).2, fun qid hq => hq⟩
  · have hor : ((jget ((_get_user_quiz_state state user_id).2) "active_quiz_id").isNull
        = false) ∧ ((activeIdOf ((_get_user_quiz_state state user_id).2) == "") = false) := by
      rcases h1 : (jget ((_get_user_quiz_state state user_id).2) "active_quiz_id").isNull
      · rcases h2 : (activeIdOf ((_get_user_quiz_state state user_id).2) == "")
        · exact ⟨rfl, rfl⟩
        · rw [h1, h2] at hc1; exact absurd rfl hc1
      · rw [h1] at hc1; exact absurd rfl hc1
    obtain ⟨haq, hbeq⟩ := hor
    rcases hfind : quizzes.find? (fun q => quizIdStr q ==
        activeIdOf ((_get_user_quiz_state state user_id).2)) with _ | quiz
    · unfold handle_quiz_answer at hout
      simp only [haq, hbeq, Bool.or_self, Bool.false_eq_true, if_false, hfind] at hout
      have ho : out = ⟨stateWithUser ((_get_user_quiz_state state user_id).1)
          (toString user_id)
          (jset ((_get_user_quiz_state state user_id).2) "active_quiz_id" J.null),
          true, []⟩ := (Option.some.inj hout).symm
      subst ho
      refine ⟨_, _, olookup_oset_self _ _ _, olookup_oset_self _ _ _, ?_⟩
      intro qid hq
      rw [jget_jset_ne_of hu0obj "active_quiz_id" "results" _ (by decide)]
      exact hq
    · by_cases hvis : (_is_hidden_quiz quiz && !is_admin) = true
      · unfold handle_quiz_answer at hout
        simp only [haq, hbeq, Bool.or_self, Bool.false_eq_true, if_false, hfind,
          hvis, if_true] at hout
        have ho : out = ⟨stateWithUser ((_get_user_quiz_state state user_id).1)
            (toString user_id)
            (jset ((_get_user_quiz_state state user_id).2) "active_quiz_id" J.null),
            true, []⟩ := (Option.some.inj hout).symm
        subst ho
        refine ⟨_, _, olookup_oset_self _ _ _, olookup_oset_self _ _ _, ?_⟩
        intro qid hq
        rw [jget_jset_ne_of hu0obj "active_quiz_id" "results" _ (by decide)]
        exact hq
      · have hvisf : (_is_hidden_quiz quiz && !is_admin) = false := by
          rcases hv : (_is_hidden_quiz quiz && !is_admin)
          · rfl
          · exact absurd hv hvis
        rcases hprev : prevAttemptsOf ((_get_user_quiz_state state user_id).2)
            (activeIdOf ((_get_user_quiz_state state user_id).2)) with _ | n
        · unfold handle_quiz_answer at hout
          simp only [haq, hbeq, Bool.or_self, Bool.false_eq_true, if_false, hfind,
            hvisf, if_pos hresObj, hprev] at hout
          exact absurd hout (by simp)
        · obtain ⟨out2, uF, h1, _, h3, h4, _, hpres⟩ :=
            answer_graded_spec is_admin user_id text quizzes state judge ts quiz n
              haq hbeq hfind hvisf hprev
          have ho : out = out2 := Option.some.inj (hout.symm.trans h1)
          subst ho
          refine ⟨_, uF, h3, h4, ?_⟩
          intro qid hq
          have hqid : ¬ qid = activeIdOf ((_get_user_quiz_state state user_id).2) := by
            intro he
            rw [he, hnc] at hq
            exact absurd hq (by simp)
          unfold resultCorrect at hq ⊢
          rw [hpres qid hqid]
          exact hq

def c1Quizzes : List J :=
  [J.obj [("id", J.s "q1"), ("question", J.s "2+2?"), ("answer", J.s "4"),
          ("processed", J.b false), ("hidden", J.b false)]]

def c1State0 : List (String × J) :=
  [("users", J.obj [("5", J.obj
      [("active_quiz_id", J.null),
       ("results", J.obj [("q1", J.obj [("correct", J.b true), ("attempts", J.i 1)])]),
       ("answers", J.obj [])])])]

/-- Counterexample to C1 as stated: user 5 has solved "q1"
(`correct = true`); the admin `/quiz_ask q1` re-activates it, and an
incorrect submission then stores `correct = false` — the flag is reset
in exactly the situation the claim rules out. -/
theorem no_backsliding_counterexample :
    resultCorrect (jget (userEntryIn c1State0 "5") "results") "q1" = true ∧
    (handle_quiz_ask "private" true 5 "q1" c1Quizzes c1State0).saved = true ∧
    (handle_quiz_answer true 5 "wrong" c1Quizzes
       (handle_quiz_ask "private" true 5 "q1" c1Quizzes c1State0).state
       JudgeCall.fail "t").isSome = true ∧
    resultCorrect (jget (userEntryIn
      ((handle_quiz_answer true 5 "wrong" c1Quizzes
        (handle_quiz_ask "private" true 5 "q1" c1Quizzes c1State0).state
        JudgeCall.fail "t").getD ⟨[], false, []⟩).state "5") "results") "q1" = false :=
  ⟨rfl, rfl, rfl, rfl⟩

def c1wQuizzes : List J :=
  [J.obj [("id", J.s "q1"), ("question", J.s "2+2?"), ("answer", J.s "4"),
          ("processed", J.b false), ("hidden", J.b false)]]

def c1wState : List (String × J) :=
  [("users", J.obj [("1", J.obj
      [("active_quiz_id", J.s "q1"),
       ("results", J.obj [("q0", J.obj [("correct", J.b true), ("attempts", J.i 4)])]),
       ("answers", J.obj [])])])]

/-- Witness for the amended C1: with the active quiz "q1" unsolved, an
incorrect submission leaves the previously-correct "q0" correct. -/
theorem no_backsliding_amended_witness :
    resultCorrect (jget ((_get_user_quiz_state c1wState 1).2) "results")
      (activeIdOf ((_get_user_quiz_state c1wState 1).2)) = false ∧
    resultCorrect (jget (userEntryIn
      ((handle_quiz_answer false 1 "nope" c1wQuizzes c1wState JudgeCall.fail "t").getD
        ⟨[], false, []⟩).state "1") "results") "q0" = true := by
  refine ⟨rfl, ?_⟩
  obtain ⟨users, uF, hl1, hl2, hpres⟩ :=
    no_backsliding_amended false 1 "nope" c1wQuizzes c1wState JudgeCall.fail "t"
      ((handle_quiz_answer false 1 "nope" c1wQuizzes c1wState JudgeCall.fail "t").getD
        ⟨[], false, []⟩) rfl rfl
  have hq0 := hpres "q0" rfl
  have hl2b : olookup users "1" = some uF := hl2
  simp only [userEntryIn, jget, hl1, Option.getD_some, hl2b]
  exact hq0

/-- C4 (amended): when `active_quiz_id` is set and resolves among the
*non-hidden* quizzes (the code looks it up in the filtered list, so a
present-but-hidden active quiz is not resent), `/quiz` resends the
question unchanged, mutates nothing and saves nothing; a second `/quiz`
on the produced state yields the identical output. -/
theorem idempotent_resend_amended (user_id : Int) (quizzes : List J)
    (state : List (String × J)) (u0 quiz : J)
    (hG : _get_user_quiz_state state user_id = (state, u0))
    (haq : (jget u0 "active_quiz_id").isNull = false)
    (hbeq : (activeIdOf u0 == "") = false)
    (hfound : (quizzes.filter (fun q => !_is_hidden_quiz q)).find?
      (fun q => quizIdStr q == activeIdOf u0) = some quiz)
    (hqobj : quiz.isObj = true) :
    handle_quiz "private" user_id quizzes state =
      ⟨state, false, ["Квиз " ++ activeIdOf u0 ++ " уже в процессе.\n\n" ++
        pyStrip (pyStr (pyOr (jget quiz "question") (J.s "")))]⟩ ∧
    handle_quiz "private" user_id quizzes
        (handle_quiz "private" user_id quizzes state).state =
      ⟨state, false, ["Квиз " ++ activeIdOf u0 ++ " уже в процессе.\n\n" ++
        pyStrip (pyStr (pyOr (jget quiz "question") (J.s "")))]⟩ := by
  have hne : (quizzes.filter (fun q => !_is_hidden_quiz q)).isEmpty = false := by
    rcases hE : (quizzes.filter (fun q => !_is_hidden_quiz q)).isEmpty
    · rfl
    · rw [List.isEmpty_iff.mp hE] at hfound
      exact absurd hfound (by simp)
  have hfirst : handle_quiz "private" user_id quizzes state =
      ⟨state, false, ["Квиз " ++ activeIdOf u0 ++ " уже в процессе.\n\n" ++
        pyStrip (pyStr (pyOr (jget quiz "question") (J.s "")))]⟩ := by
    have haqs : (if (jget u0 "active_quiz_id").isNull then "" else
        pyStrip (pyStr (jget u0 "active_quiz_id"))) = activeIdOf u0 := by
      rw [haq]; rfl
    unfold handle_quiz
    simp only []
    rw [if_neg (by simp)]
    rw [if_neg (by simp [hne])]
    simp only [hG]
    rw [haqs]
    rw [if_pos (by simp only [bne]; rw [hbeq]; rfl)]
    simp only [hfound, hqobj, if_true]
  refine ⟨hfirst, ?_⟩
  rw [hfirst]
  exact hfirst

def c4Quizzes : List J :=
  [J.obj [("id", J.s "q1"), ("question", J.s "hidden?"), ("answer", J.s "h"),
          ("processed", J.b false), ("hidden", J.b true)],
   J.obj [("id", J.s "q2"), ("question", J.s "visible?"), ("answer", J.s "v"),
          ("processed", J.b false), ("hidden", J.b false)]]

def c4State : List (String × J) :=
  [("users", J.obj [("3", J.obj
      [("active_quiz_id", J.s "q1"), ("results", J.obj []), ("answers", J.obj [])])])]

/-- Counterexample to C4 as stated: the active quiz "q1" is still
present in the repository but hidden; `/quiz` does not resend it — it
re-picks "q2", mutates `active_quiz_id` and saves. -/
theorem idempotent_resend_counterexample :
    (c4Quizzes.find? (fun q => quizIdStr q == "q1")).isSome = true ∧
    activeIdOf ((_get_user_quiz_state c4State 3).2) = "q1" ∧
    (handle_quiz "private" 3 c4Quizzes c4State).saved = true ∧
    jget (userEntryIn (handle_quiz "private" 3 c4Quizzes c4State).state "3")
      "active_quiz_id" = J.s "q2" :=
  ⟨rfl, rfl, rfl, rfl⟩

def c4wEntry : J :=
  J.obj [("active_quiz_id", J.s "q2"), ("results", J.obj []), ("answers", J.obj [])]

def c4wState : List (String × J) := [("users", J.obj [("3", c4wEntry)])]

/-- Witness for the amended C4: with the visible quiz "q2" active,
`/quiz` resends its question, changes nothing and saves nothing, twice
in a row. -/
theorem idempotent_resend_amended_witness :
    handle_quiz "private" 3 c4Quizzes c4wState =
      ⟨c4wState, false, ["Квиз q2 уже в процессе.\n\nvisible?"]⟩ ∧
    handle_quiz "private" 3 c4Quizzes
        (handle_quiz "private" 3 c4Quizzes c4wState).state =
      ⟨c4wState, false, ["Квиз q2 уже в процессе.\n\nvisible?"]⟩ :=
  idempotent_resend_amended 3 c4Quizzes c4wState c4wEntry
    (J.obj [("id", J.s "q2"), ("question", J.s "visible?"), ("answer", J.s "v"),
            ("processed", J.b false), ("hidden", J.b false)])
    rfl rfl rfl rfl rfl

/-- `find?` only depends on the predicate's values on the list. -/
theorem find_congr {α} {p p2 : α → Bool} :
    ∀ l : List α, (∀ x ∈ l, p x = p2 x) → l.find? p = l.find? p2 := by
  intro l
  induction l with
  | nil => intro _; rfl
  | cons a rest ih =>
    intro h
    have ha := h a (List.mem_cons_self _ _)
    rcases hp : p2 a
    · rw [List.find?_cons_of_neg _ (by simp [ha, hp]),
        List.find?_cons_of_neg _ (by simp [hp])]
      exact ih (fun x hx => h x (List.mem_cons_of_mem _ hx))
    · rw [List.find?_cons_of_pos _ (by rw [ha, hp]),
        List.find?_cons_of_pos _ (by rw [hp])]

/-- Modelled from the spec's words for C6: first pass picks the first
quiz whose id differs from the active one and is not marked correct, a
second pass drops the id restriction. -/
def skipClaimSelect (filtered : List J) (active : String) (results : J) : Option J :=
  match filtered.find? (fun q =>
      !(quizIdStr q == active) && !resultCorrect results (quizIdStr q)) with
  | some q => some q
  | none => filtered.find? (fun q => !resultCorrect results (quizIdStr q))

/-- C6 (amended): provided every quiz id is nonempty after trimming
(the code silently skips empty-id quizzes in both passes), `/skip` with
an active quiz selects exactly what the claim's two-pass rule selects,
stores it as active and saves; with nothing selectable or no active
quiz it changes nothing and sends nothing. -/
theorem skip_two_pass_amended (user_id : Int) (quizzes : List J)
    (state : List (String × J)) (u0 : J)
    (hG : _get_user_quiz_state state user_id = (state, u0))
    (hids : ∀ q ∈ quizzes, ¬ quizIdStr q = "") :
    (((jget u0 "active_quiz_id").isNull = true ∨ activeIdOf u0 = "") →
      handle_skip "private" user_id quizzes state = ⟨state, false, []⟩) ∧
    ((jget u0 "active_quiz_id").isNull = false → ¬ activeIdOf u0 = "" →
      (∀ nq, skipClaimSelect (quizzes.filter (fun q => !_is_hidden_quiz q))
          (activeIdOf u0) (jget u0 "results") = some nq →
        handle_skip "private" user_id quizzes state =
          ⟨stateWithUser state (toString user_id)
            (jset u0 "active_quiz_id" (J.s (quizIdStr nq))), true,
           ["Квиз " ++ quizIdStr nq ++ ".\n\n" ++
            pyStrip (pyStr (pyOr (jget nq "question") (J.s "")))]⟩) ∧
      (skipClaimSelect (quizzes.filter (fun q => !_is_hidden_quiz q))
          (activeIdOf u0) (jget u0 "results") = none →
        handle_skip "private" user_id quizzes state = ⟨state, false, []⟩)) := by
  have hsnd : (_get_user_quiz_state state user_id).2 = u0 := congrArg Prod.snd hG
  have hsw : stateWithUser state (toString user_id) u0 = state := by
    rw [← hsnd]
    exact congrArg Prod.fst hG
  have hres : (jget u0 "results").isObj = true := by
    rw [← hsnd]
    exact (userEntryFix_spec (origUserEntry state user_id)).2.1
  constructor
  · intro hcase
    have hcond : ((jget u0 "active_quiz_id").isNull
        || (pyStrip (pyStr (jget u0 "active_quiz_id")) == "")) = true := by
      rcases hcase with h | h
      · rw [h]; rfl
      · have : (pyStrip (pyStr (jget u0 "active_quiz_id")) == "") = true := by
          rw [show pyStrip (pyStr (jget u0 "active_quiz_id")) = activeIdOf u0 from rfl, h]
          rfl
        rw [this, Bool.or_true]
    unfold handle_skip
    simp only []
    rw [if_neg (by simp)]
    simp only [hG]
    rw [if_pos hcond]
  · intro haq hne
    have hbeq : (pyStrip (pyStr (jget u0 "active_quiz_id")) == "") = false :=
      beq_eq_false_iff_ne.mpr hne
    have hcond : ((jget u0 "active_quiz_id").isNull
        || (pyStrip (pyStr (jget u0 "active_quiz_id")) == "")) = false := by
      rw [haq, hbeq]; rfl
    have hfiltermem : ∀ q ∈ quizzes.filter (fun q => !_is_hidden_quiz q),
        ¬ quizIdStr q = "" :=
      fun q hq => hids q (List.mem_filter.mp hq).1
    have hpass1 : (quizzes.filter (fun q => !_is_hidden_quiz q)).find? (fun q =>
        !(quizIdStr q == "" || quizIdStr q == activeIdOf u0)
          && !resultCorrect (jget u0 "results") (quizIdStr q)) =
        (quizzes.filter (fun q => !_is_hidden_quiz q)).find? (fun q =>
          !(quizIdStr q == activeIdOf u0)
            && !resultCorrect (jget u0 "results") (quizIdStr q)) := by
      refine find_congr _ (fun q hq => ?_)
      have : (quizIdStr q == "") = false :=
        beq_eq_false_iff_ne.mpr (hfiltermem q hq)
      rw [this, Bool.false_or]
    have hpass2 : (quizzes.filter (fun q => !_is_hidden_quiz q)).find? (fun q =>
        !(quizIdStr q == "") && !resultCorrect (jget u0 "results") (quizIdStr q)) =
        (quizzes.filter (fun q => !_is_hidden_quiz q)).find? (fun q =>
          !resultCorrect (jget u0 "results") (quizIdStr q)) := by
      refine find_congr _ (fun q hq => ?_)
      have : (quizIdStr q == "") = false :=
        beq_eq_false_iff_ne.mpr (hfiltermem q hq)
      rw [this]
      rfl
    constructor
    · intro nq hsel
      unfold handle_skip
      simp only []
      rw [if_neg (by simp)]
      simp only [hG]
      rw [if_neg (by simp [hcond])]
      by_cases hE : (quizzes.filter (fun q => !_is_hidden_quiz q)).isEmpty = true
      · rw [List.isEmpty_iff.mp hE] at hsel
        simp [skipClaimSelect, List.find?] at hsel
      · rw [if_neg (by simp [hE])]
        rw [if_pos hres]
        unfold skipClaimSelect at hsel
        rw [← hpass1, ← hpass2] at hsel
        rcases hp1 : (quizzes.filter (fun q => !_is_hidden_quiz q)).find? (fun q =>
            !(quizIdStr q == "" || quizIdStr q == activeIdOf u0)
              && !resultCorrect (jget u0 "results") (quizIdStr q)) with _ | q1
        · rw [hp1] at hsel
          simp only [hp1]
          rcases hp2 : (quizzes.filter (fun q => !_is_hidden_quiz q)).find? (fun q =>
              !(quizIdStr q == "")
                && !resultCorrect (jget u0 "results") (quizIdStr q)) with _ | q2
          · rw [hp2] at hsel; exact absurd hsel (by simp)
          · rw [hp2] at hsel
            have : q2 = nq := Option.some.inj hsel
            subst this
            simp only [hp2]
        · rw [hp1] at hsel
          have : q1 = nq := Option.some.inj hsel
          subst this
          simp only [hp1]
    · intro hsel
      unfold handle_skip
      simp only []
      rw [if_neg (by simp)]
      simp only [hG]
      rw [if_neg (by simp [hcond])]
      by_cases hE : (quizzes.filter (fun q => !_is_hidden_quiz q)).isEmpty = true
      · rw [if_pos hE]
      · rw [if_neg (by simp [hE])]
        rw [if_pos hres]
        unfold skipClaimSelect at hsel
        rw [← hpass1, ← hpass2] at hsel
        rcases hp1 : (quizzes.filter (fun q => !_is_hidden_quiz q)).find? (fun q =>
            !(quizIdStr q == "" || quizIdStr q == activeIdOf u0)
              && !resultCorrect (jget u0 "results") (quizIdStr q)) with _ | q1
        · rw [hp1] at hsel
          rcases hp2 : (quizzes.filter (fun q => !_is_hidden_quiz q)).find? (fun q =>
              !(quizIdStr q == "")
                && !resultCorrect (jget u0 "results") (quizIdStr q)) with _ | q2
          · simp only [hp1, hp2, hsw]
          · rw [hp2] at hsel; exact absurd hsel (by simp)
        · rw [hp1] at hsel; exact absurd hsel (by simp)

def c6Quizzes : List J :=
  [J.obj [("id", J.s ""), ("question", J.s "x"), ("answer", J.s "y"),
          ("processed", J.b false), ("hidden", J.b false)]]

def c6State : List (String × J) :=
  [("users", J.obj [("9", J.obj
      [("active_quiz_id", J.s "q0"), ("results", J.obj []), ("answers", J.obj [])])])]

/-- Counterexample to C6 as stated: with an active quiz and one visible
unsolved quiz whose trimmed id is empty, the claim's rule selects that
quiz (its id differs from the active one and it is not correct), but
the code skips empty ids in both passes and silently does nothing. -/
theorem skip_two_pass_counterexample :
    skipClaimSelect (c6Quizzes.filter (fun q => !_is_hidden_quiz q))
      (activeIdOf ((_get_user_quiz_state c6State 9).2))
      (jget ((_get_user_quiz_state c6State 9).2) "results") =
      some (J.obj [("id", J.s ""), ("question", J.s "x"), ("answer", J.s "y"),
        ("processed", J.b false), ("hidden", J.b false)]) ∧
    handle_skip "private" 9 c6Quizzes c6State = ⟨c6State, false, []⟩ :=
  ⟨rfl, rfl⟩

def c6wQuiz2 : J :=
  J.obj [("id", J.s "q2"), ("question", J.s "second?"), ("answer", J.s "b"),
         ("processed", J.b false), ("hidden", J.b false)]

def c6wQuizzes : List J :=
  [J.obj [("id", J.s "q1"), ("question", J.s "first?"), ("answer", J.s "a"),
          ("processed", J.b false), ("hidden", J.b false)],
   c6wQuiz2]

def c6wEntry : J :=
  J.obj [("active_quiz_id", J.s "q1"), ("results", J.obj []), ("answers", J.obj [])]

def c6wState : List (String × J) := [("users", J.obj [("9", c6wEntry)])]

/-- Witness for the amended C6: with "q1" active, `/skip` selects "q2"
(first pass), stores it active and sends its question. -/
theorem skip_two_pass_amended_witness :
    handle_skip "private" 9 c6wQuizzes c6wState =
      ⟨stateWithUser c6wState (toString (9 : Int))
        (jset c6wEntry "active_quiz_id" (J.s "q2")), true,
       ["Квиз q2.\n\nsecond?"]⟩ :=
  ((skip_two_pass_amended 9 c6wQuizzes c6wState c6wEntry rfl (by decide)).2
    rfl (by decide)).1 c6wQuiz2 rfl

/-- C9 (amended): an answer submission with a dangling
`active_quiz_id` always clears it and persists; `/quiz` clears a
dangling reference and persists only when it proceeds to serve a next
unsolved quiz (on the all-solved path it clears only in memory without
saving, and with no visible quizzes it returns before reading the
state). -/
theorem dangling_self_heal_amended (is_admin : Bool) (user_id : Int) (text : String)
    (quizzes : List J) (state : List (String × J)) (judge : JudgeCall) (ts : String) :
    ((jget ((_get_user_quiz_state state user_id).2) "active_quiz_id").isNull = false →
     (activeIdOf ((_get_user_quiz_state state user_id).2) == "") = false →
     quizzes.find? (fun q => quizIdStr q ==
       activeIdOf ((_get_user_quiz_state state user_id).2)) = none →
      handle_quiz_answer is_admin user_id text quizzes state judge ts =
        some ⟨stateWithUser ((_get_user_quiz_state state user_id).1) (toString user_id)
          (jset ((_get_user_quiz_state state user_id).2) "active_quiz_id" J.null),
          true, []⟩) ∧
    (∀ nq,
     (jget ((_get_user_quiz_state state user_id).2) "active_quiz_id").isNull = false →
     (activeIdOf ((_get_user_quiz_state state user_id).2) == "") = false →
     (quizzes.filter (fun q => !_is_hidden_quiz q)).find? (fun q => quizIdStr q ==
       activeIdOf ((_get_user_quiz_state state user_id).2)) = none →
     nextUnsolved quizzes (jget ((_get_user_quiz_state state user_id).2) "results") =
       some nq →
      (handle_quiz "private" user_id quizzes state).saved = true ∧
      jget (userEntryIn (handle_quiz "private" user_id quizzes state).state
        (toString user_id)) "active_quiz_id" = J.s (quizIdStr nq)) := by
  have hu0obj : ((_get_user_quiz_state state user_id).2).isObj = true :=
    (userEntryFix_spec (origUserEntry state user_id)).1
  have hresObj : (jget ((_get_user_quiz_state state user_id).2) "results").isObj = true :=
    (userEntryFix_spec (origUserEntry state user_id)).2.1
  constructor
  · intro haq hbeq hnone
    unfold handle_quiz_answer
    simp only [haq, hbeq, Bool.or_self, Bool.false_eq_true, if_false, hnone]
  · intro nq haq hbeq hdangle hnext
    have hne : (quizzes.filter (fun q => !_is_hidden_quiz q)).isEmpty = false := by
      rcases hE : (quizzes.filter (fun q => !_is_hidden_quiz q)).isEmpty
      · rfl
      · unfold nextUnsolved at hnext
        rw [List.isEmpty_iff.mp hE] at hnext
        exact absurd hnext (by simp)
    have haqs : (if (jget ((_get_user_quiz_state state user_id).2)
        "active_quiz_id").isNull then "" else
        pyStrip (pyStr (jget ((_get_user_quiz_state state user_id).2)
          "active_quiz_id"))) = activeIdOf ((_get_user_quiz_state state user_id).2) := by
      rw [haq]; rfl
    have hu2obj : (jset ((_get_user_quiz_state state user_id).2)
        "active_quiz_id" J.null).isObj = true := jset_isObj hu0obj _ _
    have hu2res : jget (jset ((_get_user_quiz_state state user_id).2)
        "active_quiz_id" J.null) "results" =
        jget ((_get_user_quiz_state state user_id).2) "results" :=
      jget_jset_ne_of hu0obj "active_quiz_id" "results" _ (by decide)
    have heq : handle_quiz "private" user_id quizzes state =
        ⟨stateWithUser (stateWithUser ((_get_user_quiz_state state user_id).1)
            (toString user_id)
            (jset ((_get_user_quiz_state state user_id).2) "active_quiz_id" J.null))
          (toString user_id)
          (jset (jset ((_get_user_quiz_state state user_id).2) "active_quiz_id" J.null)
            "active_quiz_id" (J.s (quizIdStr nq))),
         true,
         ["Квиз " ++ quizIdStr nq ++ ".\n\n" ++
          pyStrip (pyStr (pyOr (jget nq "question") (J.s "")))]⟩ := by
      unfold handle_quiz
      simp only []
      rw [if_neg (by simp)]
      rw [if_neg (by simp [hne])]
      rw [haqs]
      rw [if_pos (by simp only [bne]; rw [hbeq]; rfl)]
      simp only [hdangle]
      unfold handleQuizPick
      simp only []
      rw [if_pos (by rw [hu2res]; exact hresObj)]
      unfold nextUnsolved at hnext
      simp only [hu2res, hnext]
    rw [heq]
    refine ⟨rfl, ?_⟩
    simp only [userEntryIn, stateWithUser, jget, olookup_oset_self, Option.getD_some]
    show jget (jset (jset ((_get_user_quiz_state state user_id).2) "active_quiz_id" J.null)
      "active_quiz_id" (J.s (quizIdStr nq))) "active_quiz_id" = J.s (quizIdStr nq)
    rw [jget_jset_self_of hu2obj]

def c9Quizzes : List J :=
  [J.obj [("id", J.s "q2"), ("question", J.s "only?"), ("answer", J.s "b"),
          ("processed", J.b false), ("hidden", J.b false)]]

def c9State : List (String × J) :=
  [("users", J.obj [("4", J.obj
      [("active_quiz_id", J.s "gone"),
       ("results", J.obj [("q2", J.obj [("correct", J.b true), ("attempts", J.i 1)])]),
       ("answers", J.obj [])])])]

/-- Counterexample to C9 as stated: the stored `active_quiz_id`
"gone" references no quiz, yet `/quiz` — a read of that user's state —
answers "all complete" without calling the save, so the dangling
reference survives in the persisted store. -/
theorem dangling_self_heal_counterexample :
    c9Quizzes.find? (fun q => quizIdStr q ==
      activeIdOf ((_get_user_quiz_state c9State 4).2)) = none ∧
    (handle_quiz "private" 4 c9Quizzes c9State).saved = false ∧
    (handle_quiz "private" 4 c9Quizzes c9State).msgs =
      ["Все квизы уже пройдены. Отличная работа!"] :=
  ⟨rfl, rfl, rfl⟩

def c9wQuizzes : List J :=
  [J.obj [("id", J.s "q2"), ("question", J.s "only?"), ("answer", J.s "b"),
          ("processed", J.b false), ("hidden", J.b false)]]

def c9wEntry : J :=
  J.obj [("active_quiz_id", J.s "gone"), ("results", J.obj []), ("answers", J.obj [])]

def c9wState : List (String × J) := [("users", J.obj [("4", c9wEntry)])]

/-- Witness for the amended C9: an answer submission clears the
dangling "gone" and saves; `/quiz` replaces it with the next unsolved
quiz "q2" and saves. -/
theorem dangling_self_heal_amended_witness :
    (handle_quiz_answer false 4 "x" c9wQuizzes c9wState JudgeCall.fail "t" =
      some ⟨stateWithUser ((_get_user_quiz_state c9wState 4).1) (toString (4 : Int))
        (jset ((_get_user_quiz_state c9wState 4).2) "active_quiz_id" J.null),
        true, []⟩) ∧
    ((handle_quiz "private" 4 c9wQuizzes c9wState).saved = true ∧
     jget (userEntryIn (handle_quiz "private" 4 c9wQuizzes c9wState).state
       (toString (4 : Int))) "active_quiz_id" = J.s "q2") :=
  ⟨(dangling_self_heal_amended false 4 "x" c9wQuizzes c9wState JudgeCall.fail "t").1
     rfl rfl rfl,
   (dangling_self_heal_amended false 4 "x" c9wQuizzes c9wState JudgeCall.fail "t").2
     (J.obj [("id", J.s "q2"), ("question", J.s "only?"), ("answer", J.s "b"),
             ("processed", J.b false), ("hidden", J.b false)]) rfl rfl rfl rfl⟩
